import Mathlib

/-!
Verification development for the `pdf` layout engine (Go sources `ast.go`,
`layout.go`, renderer).  Go `float64` values are modelled as exact rationals
(`ℚ`): none of the verified properties depends on floating-point rounding.
Go strings are modelled as `List Char` (rune lists); byte lengths are
recovered through `Char.utf8Size`.  Nullable pointers (`*Box`, `*Color`,
`*float64`, nil slices) are modelled as `Option`.
-/

/-- Four-sided box values (Go `Box` in `ast.go`). -/
structure GoBox where
  top : ℚ
  right : ℚ
  bottom : ℚ
  left : ℚ
  deriving DecidableEq

/-- RGB color (Go `Color` in `ast.go`); Go `int` components become `ℤ`. -/
structure GoColor where
  r : ℤ
  g : ℤ
  b : ℤ
  deriving DecidableEq

/-- Computed layout info (Go `CalculatedInfo` in `ast.go`).  Only the fields
read or written by the embedded layout functions are kept. -/
structure CalcInfo where
  outerX : ℚ := 0
  outerY : ℚ := 0
  innerX : ℚ := 0
  innerY : ℚ := 0
  x : ℚ := 0
  y : ℚ := 0
  width : ℚ := 0
  height : ℚ := 0
  outerWidth : ℚ := 0
  outerHeight : ℚ := 0
  innerWidth : ℚ := 0
  innerHeight : ℚ := 0
  lineHeight : ℚ := 0
  fontSize : ℚ := 0
  fontFamily : String := ""
  bold : Bool := false
  color : Option GoColor := none
  direction : String := ""

/-- Widget fields other than the children (Go `Widget` in `ast.go`).
Fields never read by the embedded layout functions (borders, stroke color,
image bytes, cell options, …) are omitted.  `valueLines` is an `Option`
because the Go code distinguishes a nil slice from an empty one. -/
structure WData where
  wtype : String := ""
  x : ℚ := 0
  y : ℚ := 0
  width : ℚ := 0
  height : ℚ := 0
  padding : Option GoBox := none
  margin : Option GoBox := none
  lineHeight : ℚ := 0
  fontSize : ℚ := 0
  fontFamily : String := ""
  bold : Bool := false
  color : Option GoColor := none
  backgroundColor : Option GoColor := none
  gap : ℚ := 0
  direction : String := ""
  value : List Char := []
  valueLines : Option (List (List Char)) := none
  wrap : Bool := false
  align : String := ""
  pageNumber : ℕ := 0
  columns : ℕ := 0
  carryColumn : ℤ := -1
  carryLast : Option ℚ := none
  carryNext : Option ℚ := none
  breakMargin : ℚ := 0
  alternateColor : Option GoColor := none
  isHeader : Bool := false
  calcd : CalcInfo := {}

/-- A widget tree node (Go `*Widget` with its `Children` slice). -/
inductive GoWidget where
  | node (data : WData) (children : List GoWidget)

/-- The non-child fields of a widget. -/
def GoWidget.data : GoWidget → WData
  | .node d _ => d

/-- The children of a widget. -/
def GoWidget.children : GoWidget → List GoWidget
  | .node _ cs => cs

@[simp] theorem GoWidget.data_node (d : WData) (cs : List GoWidget) :
    (GoWidget.node d cs).data = d := rfl

@[simp] theorem GoWidget.children_node (d : WData) (cs : List GoWidget) :
    (GoWidget.node d cs).children = cs := rfl

theorem GoWidget.sizeOf_mem_children (w : GoWidget) (c : GoWidget)
    (h : c ∈ w.children) : sizeOf c < sizeOf w := by
  cases w with
  | node d cs =>
    simp only [GoWidget.children] at h
    have := List.sizeOf_lt_of_mem h
    simp only [GoWidget.node.sizeOf_spec]
    omega

/-! ## Text measurement (Go `PdfLibDoc.MeasureTextWidth` in `ast.go`)

`MeasureTextWidth` returns `float64(len(text)) * 0.45 * p.FontSize`, where
`len(text)` is the byte length of the UTF-8 string; the empty string is
special-cased to 0.  `Layouter.measureTextWidth` temporarily swaps the font
size of the shared `PdfLibDoc` before calling `MeasureTextWidth`, which is
behaviourally the same as measuring at the given size directly. -/

/-- Byte length of a rune list under UTF-8 (Go `len` on a string). -/
def utf8Len (s : List Char) : ℚ :=
  ((s.map fun c => (c.utf8Size : ℚ)).sum)

/-- Go `PdfLibDoc.MeasureTextWidth`, at an explicit font size (the font-size
swap performed by `Layouter.measureTextWidth` is identity-on-result). -/
def measureText (fontSize : ℚ) (s : List Char) : ℚ :=
  if s = [] then 0 else utf8Len s * (9 / 20) * fontSize

@[simp] theorem utf8Len_nil : utf8Len [] = 0 := rfl

theorem utf8Len_cons (c : Char) (s : List Char) :
    utf8Len (c :: s) = (c.utf8Size : ℚ) + utf8Len s := by
  simp [utf8Len]

theorem utf8Len_append (s t : List Char) :
    utf8Len (s ++ t) = utf8Len s + utf8Len t := by
  simp [utf8Len]

theorem measureText_eq (fontSize : ℚ) (s : List Char) :
    measureText fontSize s = utf8Len s * (9 / 20) * fontSize := by
  unfold measureText
  split
  · simp [*]
  · rfl

theorem utf8Size_pos (c : Char) : (0 : ℚ) < (c.utf8Size : ℚ) := by
  have h := Char.utf8Size_pos c
  exact_mod_cast h

theorem utf8Len_nonneg (s : List Char) : 0 ≤ utf8Len s := by
  induction s with
  | nil => simp
  | cons c s ih =>
    rw [utf8Len_cons]
    have := utf8Size_pos c
    linarith

/-! ## Whitespace helpers (Go `strings.TrimSpace`, `strings.Fields`,
`strings.Split`)

`unicode.IsSpace` is modelled on the ASCII whitespace characters that can
appear in the XML attribute/text values handled here. -/

/-- Model of `unicode.IsSpace` restricted to ASCII whitespace. -/
def isSpaceChar (c : Char) : Bool :=
  c = ' ' || c = '\t' || c = '\n' || c = '\r'

/-- Go `strings.Split` on a single separator character. -/
def splitOnChar (sep : Char) : List Char → List (List Char)
  | [] => [[]]
  | c :: cs =>
    if c = sep then [] :: splitOnChar sep cs
    else
      match splitOnChar sep cs with
      | [] => [[c]]
      | l :: ls => (c :: l) :: ls

/-- Go `strings.TrimSpace`. -/
def trimChars (s : List Char) : List Char :=
  ((s.dropWhile isSpaceChar).reverse.dropWhile isSpaceChar).reverse

theorem dropWhile_length_le {α : Type} (p : α → Bool) (cs : List α) :
    (cs.dropWhile p).length ≤ cs.length := by
  induction cs with
  | nil => simp
  | cons c cs ih =>
    rw [List.dropWhile_cons]
    split
    · exact Nat.le_trans ih (Nat.le_succ _)
    · simp

/-- Go `strings.Fields`: maximal runs of non-whitespace characters. -/
def fieldsChars : List Char → List (List Char)
  | [] => []
  | c :: cs =>
    if isSpaceChar c then fieldsChars cs
    else (c :: cs.takeWhile (fun d => !isSpaceChar d)) ::
      fieldsChars (cs.dropWhile (fun d => !isSpaceChar d))
termination_by s => s.length
decreasing_by
  · simp
  · have := dropWhile_length_le (fun d => !isSpaceChar d) cs
    simp
    omega

/-! ## Text wrapping (Go `Layouter.splitLines` in `layout.go`)

The character-level break loop in the Go source contains a
`len(wordBuff) == 0` fallback that is unreachable: the rune loop always
admits the first rune of the remaining word (its guard requires
`len(wordBuff) > 0` to break), so the produced buffer is never empty for a
non-empty word.  `takeChunk` below reflects that behaviour. -/

/-- Inner rune loop of the long-word break in `splitLines`: accumulate runes
while the running width stays within `avail` (`acc` is the width consumed so
far, including the first, unconditionally admitted rune). -/
def takeChunkGo (f avail : ℚ) (acc : ℚ) : List Char → List Char × List Char
  | [] => ([], [])
  | c :: cs =>
    if acc + measureText f [c] > avail then ([], c :: cs)
    else
      let p := takeChunkGo f avail (acc + measureText f [c]) cs
      (c :: p.1, p.2)

/-- One iteration of the long-word break loop: the first rune is always
admitted (the Go guard `len(wordBuff) > 0` is false on entry). -/
def takeChunk (f avail : ℚ) : List Char → List Char × List Char
  | [] => ([], [])
  | c :: cs =>
    let p := takeChunkGo f avail (measureText f [c]) cs
    (c :: p.1, p.2)

/-- The long-word break loop of `splitLines`, fuelled by the number of
remaining runes (each iteration consumes at least one rune). -/
def charBreakAux (f avail : ℚ) : ℕ → List Char → List (List Char)
  | _, [] => []
  | 0, _ :: _ => []
  | fuel + 1, c :: cs =>
    let p := takeChunk f avail (c :: cs)
    p.1 :: charBreakAux f avail fuel p.2

/-- Splitting a word longer than the available width into character chunks
(Go: the `for len(remainingWord) > 0` loop in `splitLines`). -/
def charBreak (f avail : ℚ) (s : List Char) : List (List Char) :=
  charBreakAux f avail s.length s

/-- Go `strings.Join(line, " ")`. -/
def joinSpace : List (List Char) → List Char
  | [] => []
  | [w] => w
  | w :: ws => w ++ ' ' :: joinSpace ws

/-- The per-line word loop of `splitLines`: `line` is the current line's
words, `lw` the running `lineWidth` (word widths plus a trailing space width
after each append), `acc` the lines emitted so far. -/
def processWords (f avail sp : ℚ) :
    List (List Char) → List (List Char) → ℚ → List (List Char) →
      List (List Char)
  | [], line, _, acc => if line = [] then acc else acc ++ [joinSpace line]
  | w :: ws, line, lw, acc =>
    let ww := measureText f w
    if ww > avail then
      let acc1 := if line = [] then acc else acc ++ [joinSpace line]
      processWords f avail sp ws [] 0 (acc1 ++ charBreak f avail w)
    else if lw + ww > avail then
      let acc1 := if line = [] then acc else acc ++ [joinSpace line]
      processWords f avail sp ws [w] ww acc1
    else
      processWords f avail sp ws (line ++ [w]) (lw + ww + sp) acc

/-- Go `Layouter.splitLines`: split on newlines, trim, drop empty lines,
then run the greedy word loop per text line. -/
def splitLines (f avail : ℚ) (text : List Char) : List (List Char) :=
  let sp := measureText f [' ']
  (splitOnChar '\n' text).foldl
    (fun acc tl =>
      let t := trimChars tl
      if t = [] then acc
      else processWords f avail sp (fieldsChars t) [] 0 acc)
    []

/-! ## Box-model conversion helpers (`layout.go`)

Each helper mutates the widget's `Calculated` record in Go; here each maps
`WData → WData`. -/

/-- Go `addjustCalculatedWidth`. -/
def addjustCalculatedWidth (w : WData) : WData :=
  let c := w.calcd
  let cw := if c.width = 0 then w.width else c.width
  let iw0 := match w.padding with
    | some p => cw - (p.left + p.right)
    | none => cw
  let iw := match w.padding with
    | some _ => if iw0 < 0 then 0 else iw0
    | none => iw0
  let ow := match w.margin with
    | some m => cw + m.left + m.right
    | none => cw
  { w with calcd := { c with width := cw, innerWidth := iw, outerWidth := ow } }

/-- Go `addjustCalculatedHeight`. -/
def addjustCalculatedHeight (w : WData) : WData :=
  let c := w.calcd
  let ch := if c.height = 0 then w.height else c.height
  let ih0 := match w.padding with
    | some p => ch - (p.top + p.bottom)
    | none => ch
  let ih := match w.padding with
    | some _ => if ih0 < 0 then 0 else ih0
    | none => ih0
  let oh := match w.margin with
    | some m => ch + m.top + m.bottom
    | none => ch
  { w with calcd := { c with height := ch, innerHeight := ih, outerHeight := oh } }

/-- Go `addjustCalculatedSize`. -/
def addjustCalculatedSize (w : WData) : WData :=
  addjustCalculatedHeight (addjustCalculatedWidth w)

/-- Go `recalculateFromInnerHeight`. -/
def recalculateFromInnerHeight (w : WData) : WData :=
  let c := w.calcd
  let h := match w.padding with
    | some p => c.innerHeight + p.top + p.bottom
    | none => c.innerHeight
  let oh := match w.margin with
    | some m => h + m.top + m.bottom
    | none => h
  { w with calcd := { c with height := h, outerHeight := oh } }

/-- Go `recalculateFromOuterHeight`. -/
def recalculateFromOuterHeight (w : WData) : WData :=
  let c := w.calcd
  let h := match w.margin with
    | some m => c.outerHeight - (m.top + m.bottom)
    | none => c.outerHeight
  let ih0 := match w.padding with
    | some p => h - (p.top + p.bottom)
    | none => h
  let ih := match w.padding with
    | some _ => if ih0 < 0 then 0 else ih0
    | none => ih0
  { w with calcd := { c with height := h, innerHeight := ih } }

/-- Go `recalculateFromOuterWidth`. -/
def recalculateFromOuterWidth (w : WData) : WData :=
  let c := w.calcd
  let cw := match w.margin with
    | some m => c.outerWidth - (m.left + m.right)
    | none => c.outerWidth
  let iw0 := match w.padding with
    | some p => cw - (p.left + p.right)
    | none => cw
  let iw := match w.padding with
    | some _ => if iw0 < 0 then 0 else iw0
    | none => iw0
  { w with calcd := { c with width := cw, innerWidth := iw } }

/-- Go `adjustCalculatedY`: derive inner/content y from the outer y. -/
def adjustCalculatedY (w : WData) : WData :=
  let c := w.calcd
  let iy := match w.margin with
    | some m => c.outerY + m.top
    | none => c.outerY
  let cy := match w.padding with
    | some p => iy + p.top
    | none => iy
  { w with calcd := { c with innerY := iy, y := cy } }

/-- Go `adjustCalculatedX`: derive inner/content x from the outer x. -/
def adjustCalculatedX (w : WData) : WData :=
  let c := w.calcd
  let ix := match w.margin with
    | some m => c.outerX + m.left
    | none => c.outerX
  let cx := match w.padding with
    | some p => ix + p.left
    | none => ix
  { w with calcd := { c with innerX := ix, x := cx } }

/-! ## Attribute parsing (`ast.go`) -/

/-- UTF-8 bytes of a character (how a Go `string` stores a rune). -/
def charBytes (c : Char) : List ℕ :=
  let n := c.toNat
  if n < 128 then [n]
  else if n < 2048 then [192 + n / 64, 128 + n % 64]
  else if n < 65536 then [224 + n / 4096, 128 + n / 64 % 64, 128 + n % 64]
  else [240 + n / 262144, 128 + n / 4096 % 64, 128 + n / 64 % 64, 128 + n % 64]

/-- UTF-8 bytes of a string: a Go `string` IS this byte slice, so `len`,
indexing and slicing in the Go source all act on it. -/
def strBytes (s : List Char) : List ℕ := (s.map charBytes).flatten

/-- Value of a hexadecimal ASCII digit byte. -/
def hexByteVal (b : ℕ) : Option ℕ :=
  if 48 ≤ b ∧ b ≤ 57 then some (b - 48)
  else if 97 ≤ b ∧ b ≤ 102 then some (b - 97 + 10)
  else if 65 ≤ b ∧ b ≤ 70 then some (b - 65 + 10)
  else none

/-- Accumulating hex-digit loop of `strconv.ParseInt` over the string's
bytes: `none` as soon as a non-digit byte appears. -/
def parseHexNatAux (acc : ℕ) : List ℕ → Option ℕ
  | [] => some acc
  | b :: bs =>
    match hexByteVal b with
    | some d => parseHexNatAux (16 * acc + d) bs
    | none => none

/-- Unsigned hex parse; the empty digit string is a syntax error. -/
def parseHexNat : List ℕ → Option ℕ
  | [] => none
  | b :: bs => parseHexNatAux 0 (b :: bs)

/-- Go `parseHex`: `strconv.ParseInt(v, 16, 32)` over the bytes of `v`
(43 is `'+'`, 45 is `'-'`) with the error discarded, so any syntax error
yields 0.  `ParseInt` with an explicit base accepts an optional leading
sign and bare hex digits.  (Int32 range clamping cannot trigger on the
at-most-four-byte strings this is applied to.) -/
def parseHex (v : List ℕ) : ℤ :=
  match v with
  | 43 :: rest => ((parseHexNat rest).getD 0 : ℕ)
  | 45 :: rest => -((parseHexNat rest).getD 0 : ℕ)
  | _ => ((parseHexNat v).getD 0 : ℕ)

/-- Go `parseColor`: after the `strings.HasPrefix(v, "#")` test (the ASCII
rune `'#'` is one byte, so the rune-level match is exact) the remaining
BYTES are counted: 3 bytes select the `#RGB` arm, where Go doubles
`string(v[i])` — the UTF-8 encoding of the code point equal to byte
`v[i]` — before re-parsing it; 6 bytes select the `#RRGGBB` arm over the
byte pairs; any other byte count yields nil. -/
def parseColor (v : List Char) : Option GoColor :=
  match v with
  | '#' :: rest =>
    match strBytes rest with
    | [a, b, c] =>
      some ⟨parseHex (charBytes (Char.ofNat a) ++ charBytes (Char.ofNat a)),
            parseHex (charBytes (Char.ofNat b) ++ charBytes (Char.ofNat b)),
            parseHex (charBytes (Char.ofNat c) ++ charBytes (Char.ofNat c))⟩
    | [a, b, c, d, e, g] =>
      some ⟨parseHex [a, b], parseHex [c, d], parseHex [e, g]⟩
    | _ => none
  | _ => none

/-- Decimal value of a digit run (most significant first). -/
def natOfDigits (s : List Char) : ℕ :=
  s.foldl (fun a c => 10 * a + (c.toNat - '0'.toNat)) 0

/-- Model of Go `strconv.ParseFloat` restricted to finite decimal notation
(optional sign, digits with optional fraction, optional decimal exponent).
The hexadecimal-float, underscore, `inf` and `nan` spellings are omitted:
the claims rely only on strings that both the model and Go reject (such as
`"abc"`) or accept with the same value. -/
def goParseFloat (v : List Char) : Option ℚ :=
  let p := match v with
    | '+' :: r => ((1 : ℚ), r)
    | '-' :: r => ((-1 : ℚ), r)
    | _ => ((1 : ℚ), v)
  let sgn := p.1
  let s1 := p.2
  let intPart := s1.takeWhile Char.isDigit
  let s2 := s1.dropWhile Char.isDigit
  let q := match s2 with
    | '.' :: r => (r.takeWhile Char.isDigit, r.dropWhile Char.isDigit)
    | _ => (([] : List Char), s2)
  let fracPart := q.1
  let s3 := q.2
  if intPart = [] ∧ fracPart = [] then none
  else
    let mant : ℚ :=
      (natOfDigits intPart : ℚ) + (natOfDigits fracPart : ℚ) / 10 ^ fracPart.length
    match s3 with
    | [] => some (sgn * mant)
    | e :: r =>
      if e = 'e' ∨ e = 'E' then
        let pe := match r with
          | '+' :: t => ((1 : ℤ), t)
          | '-' :: t => ((-1 : ℤ), t)
          | _ => ((1 : ℤ), r)
        let eDigits := pe.2.takeWhile Char.isDigit
        let r2 := pe.2.dropWhile Char.isDigit
        if eDigits = [] ∨ r2 ≠ [] then none
        else some (sgn * mant * (10 : ℚ) ^ (pe.1 * (natOfDigits eDigits : ℤ)))
      else none

/-- Go `parseFloat`: `strconv.ParseFloat(v, 64)` with the error discarded,
so any non-parsing string yields 0. -/
def parseFloat (v : List Char) : ℚ :=
  (goParseFloat v).getD 0

/-- Go `parseFloatAttr`: an absent attribute is reported by `getAttrValue`
as the empty string, which selects the default; any other value goes
through `parseFloat`. -/
def parseFloatAttr (v : List Char) (defaultValue : ℚ) : ℚ :=
  if v = [] then defaultValue else parseFloat v

/-- Go `splitClean(s, "\n")`: split on newlines, trim each part, drop the
parts that trim to nothing. -/
def splitClean (s : List Char) : List (List Char) :=
  ((splitOnChar '\n' s).map trimChars).filter (fun l => l ≠ [])

/-- Go `parseToken` on an `etree.CharData` child of a `<page>` (with
`textAsWidget` true): whitespace-only text yields no widget, anything else
yields a `div` whose `ValueLines` are the cleaned lines while `Value` stays
empty.  (The `Option` cell-align field copied from the page is not
modelled; no embedded function reads it.) -/
def parseCharData (text : List Char) : Option GoWidget :=
  if trimChars text = [] then none
  else some (.node { wtype := "div", valueLines := some (splitClean text) } [])

/-! ## Text reflow (`layout.go` `wrapText`, `reflowTexts`) -/

/-- Go `wrapText`: rebuild `ValueLines` from `Value` at the computed font
size and inner width; under `wrap` keep only the first line; if no height
was declared, derive the inner height from the line count. -/
def wrapText (d : WData) : WData :=
  let buf := if d.value ≠ [] then splitLines d.calcd.fontSize d.calcd.innerWidth d.value
    else []
  let vl := if d.wrap then buf.take 1 else buf
  let d1 := { d with valueLines := some vl }
  if d.height = 0 then
    let c := d1.calcd
    recalculateFromInnerHeight
      { d1 with calcd := { c with innerHeight := (vl.length : ℚ) * c.lineHeight } }
  else d1

/-- Go `reflowTexts`: wrap the first widget with non-empty `ValueLines`
along each path and do not descend into its children; otherwise recurse. -/
def reflowTexts : GoWidget → GoWidget
  | .node d cs =>
    match d.valueLines with
    | some (_ :: _) => .node (wrapText d) cs
    | _ => .node d (cs.attach.map fun c => reflowTexts c.1)
decreasing_by
  have := List.sizeOf_lt_of_mem c.2
  simp only [GoWidget.node.sizeOf_spec]
  omega

/-! ## Style initialisation (Go `initCalculatedInfo` in `layout.go`) -/

/-- The per-widget part of Go `initCalculatedInfo`: start a fresh
`Calculated` record, inherit the font fields from the parent's computed
record, seed the declared width and height, default the direction to
`column` and resolve the bold font-family suffix. -/
def boldSuffix (d4 : WData) : WData :=
  if d4.calcd.bold ∧ ¬ d4.calcd.fontFamily.endsWith "Bold" then
    { d4 with calcd := { d4.calcd with fontFamily := d4.calcd.fontFamily ++ "Bold" } }
  else d4

def initCalcData (d : WData) (parent : Option CalcInfo) : WData :=
    let c0 : CalcInfo := {}
    let c1 := match parent with
      | some pc =>
        { c0 with
          fontFamily := if d.fontFamily ≠ "" then d.fontFamily else pc.fontFamily
          fontSize := if d.fontSize ≠ 0 then d.fontSize else pc.fontSize
          lineHeight := if d.lineHeight ≠ 0 then d.lineHeight else pc.lineHeight
          color := match d.color with
            | some c => some c
            | none => pc.color
          bold := d.bold || pc.bold }
      | none =>
        { c0 with
          fontFamily := d.fontFamily
          fontSize := d.fontSize
          lineHeight := d.lineHeight
          color := d.color
          bold := d.bold }
    let d1 := { d with calcd := c1 }
    let d2 :=
      if d.width ≠ 0 then
        addjustCalculatedWidth { d1 with calcd := { d1.calcd with width := d.width } }
      else d1
    let d3 :=
      if d.height ≠ 0 then
        addjustCalculatedHeight { d2 with calcd := { d2.calcd with height := d.height } }
      else d2
    let dir := if d.direction = "" then "column" else d.direction
    boldSuffix { d3 with calcd := { d3.calcd with direction := dir } }

/-- Go `initCalculatedInfo`: apply `initCalcData`, then recurse into the
children with this widget as parent. -/
def initCalculatedInfo : GoWidget → Option CalcInfo → GoWidget
  | .node d cs, parent =>
    let d5 := initCalcData d parent
    .node d5 (cs.attach.map fun c => initCalculatedInfo c.1 (some d5.calcd))
decreasing_by
  have := List.sizeOf_lt_of_mem c.2
  simp only [GoWidget.node.sizeOf_spec]
  omega

/-! ## Width distribution (Go `initWidgetsWidth`, `adjustColumns`,
`getOuterWidth` in `layout.go`) -/

/-- Go `getOuterWidth`: computed outer width for a leaf; for a row the
gap-separated sum over the children, for a column their maximum. -/
def getOuterWidth : GoWidget → ℚ
  | .node d cs =>
    if cs.isEmpty then d.calcd.outerWidth
    else if d.calcd.direction = "row" then
      (cs.attach.map fun c => getOuterWidth c.1).sum +
        (if d.gap > 0 then ((cs.length : ℚ) - 1) * d.gap else 0)
    else
      (cs.attach.map fun c => getOuterWidth c.1).foldl max 0
decreasing_by
  all_goals
    have := List.sizeOf_lt_of_mem c.2
    simp only [GoWidget.node.sizeOf_spec]
    omega

/-- The per-cell update of the second `adjustColumns` loop: resize the cell
to the scaled column width, re-wrap its texts, then push a declared cell
alignment one level down. -/
def adjustColumnsCell (sz : ℚ) (cell : GoWidget) : GoWidget :=
  let cd := recalculateFromOuterWidth
    { cell.data with calcd := { cell.data.calcd with outerWidth := sz } }
  let cell2 := reflowTexts (.node cd cell.children)
  if cell.data.align ≠ "" then
    .node cell2.data
      (cell2.children.map fun it => .node { it.data with align := cell.data.align } it.children)
  else cell2

/-- Go `adjustColumns`: per-column maxima of declared cell width or computed
outer width, scaled so the columns fill the table's inner width; every cell
is resized and re-wrapped.  (Go panics when a row has fewer cells than the
first row; out-of-range accesses are modelled as no contribution / no
update.)  Division follows the Go source; a zero column total (degenerate
in Go through float infinities) is ruled out in the theorems. -/
def adjustColumns (t : GoWidget) : GoWidget :=
  match t with
  | .node d rows =>
    if rows.isEmpty then .node d rows
    else
      let columnCount := match rows with
        | [] => 0
        | r :: _ => r.children.length
      let columnSizes := (List.range columnCount).map fun i =>
        (rows.map fun r =>
          match r.children.get? i with
          | some cell =>
            if cell.data.width ≠ 0 then cell.data.width else getOuterWidth cell
          | none => 0).foldl max 0
      let totalWidth := columnSizes.sum
      let tableWidth := d.calcd.innerWidth
      let scale := tableWidth / totalWidth
      if scale = 1 then .node d rows
      else
        let newSizes := columnSizes.map (· * scale)
        .node d (rows.map fun r =>
          .node r.data (r.children.mapIdx fun i cell =>
            if i < columnCount then adjustColumnsCell (newSizes.getD i 0) cell
            else cell))

/-- Go `initWidgetsWidth`: size this widget from the available width, then
distribute the inner width over the children — every child gets the full
inner width in column direction; in row direction the remaining width after
the current child outer widths and gaps is split equally among auto-width
children, or, when the current widths already fill the row, the equal share
`(inner - gap) / n` is offered to every child as its available width.
(The Go `w.Children == nil` early return is modelled as the empty-children
check: on a non-nil empty slice the Go loops and `adjustColumns` are
no-ops.)  The sizing of the widget itself (the first `if/else` of the Go
function) is `initWidgetsWidthData`. -/
def initWidgetsWidthData (d : WData) (parentWidth : ℚ) : WData :=
  if d.width = 0 then
    recalculateFromOuterWidth { d with calcd := { d.calcd with outerWidth := parentWidth } }
  else if d.calcd.outerWidth > parentWidth then
    recalculateFromOuterWidth { d with calcd := { d.calcd with outerWidth := parentWidth } }
  else addjustCalculatedWidth d

def initWidgetsWidth (w : GoWidget) (parentWidth : ℚ) : GoWidget :=
  match w with
  | .node d cs =>
    let d1 := initWidgetsWidthData d parentWidth
    if cs.isEmpty then .node d1 cs
    else
      let innerWidth := d1.calcd.innerWidth
      let cs1 :=
        if d.direction = "row" then
          let sumW0 := (cs.map fun c => c.data.calcd.outerWidth).sum
          let gapT := d.gap * ((cs.length : ℚ) - 1)
          let sumW := if gapT > 0 then sumW0 + gapT else sumW0
          if sumW < innerWidth then
            let fixedSum :=
              ((cs.filter fun c => c.data.width ≠ 0).map fun c => c.data.calcd.outerWidth).sum
            let autoCount := (cs.filter fun c => c.data.width = 0).length
            if autoCount ≠ 0 then
              let itemWidth := (innerWidth - fixedSum - gapT) / (autoCount : ℚ)
              cs.attach.map fun c =>
                if c.1.data.width = 0 then initWidgetsWidth c.1 itemWidth else c.1
            else cs
          else
            let itemWidth := (innerWidth - gapT) / (cs.length : ℚ)
            cs.attach.map fun c => initWidgetsWidth c.1 itemWidth
        else
          cs.attach.map fun c => initWidgetsWidth c.1 innerWidth
      let w1 := GoWidget.node d1 cs1
      if d.wtype = "table" then adjustColumns w1 else w1
decreasing_by
  all_goals
    have := List.sizeOf_lt_of_mem c.2
    simp only [GoWidget.node.sizeOf_spec]
    omega

/-! ## Table splitting (Go `splitTable`, `setAlternateColor`,
`getColumnSum`, `resetRowsY` in `layout.go`)

The Go loop mutates the current table clone in place and appends new pages;
here the loop produces the list of table clones in page order.  The loop
does not terminate on every input (a repeated header row can be re-prepended
forever when no data row fits under it), so it is fuelled and
`Option`-valued. -/

/-- Even-row branch of `setAlternateColor`: give the alternate color to the
cells whose background is unset. -/
def fillRowAlt (a : GoColor) (r : GoWidget) : GoWidget :=
  .node r.data (r.children.map fun cell =>
    match cell.data.backgroundColor with
    | none => .node { cell.data with backgroundColor := some a } cell.children
    | some _ => cell)

/-- Odd-row branch of `setAlternateColor`: clear every cell background. -/
def clearRowBg (r : GoWidget) : GoWidget :=
  .node r.data (r.children.map fun cell =>
    .node { cell.data with backgroundColor := none } cell.children)

/-- Go `Layouter.setAlternateColor`: skip row 0; even-indexed rows are
filled, odd-indexed rows cleared. -/
def setAlternateColorL (rows : List GoWidget) (alt : Option GoColor) : List GoWidget :=
  match alt with
  | none => rows
  | some a =>
    rows.mapIdx fun i r =>
      if i = 0 then r
      else if i % 2 = 0 then fillRowAlt a r
      else clearRowBg r

/-- Go `getColumnSum`, parametrised by the injected `NumberFormatter`'s
`ParseNumber` (a nil formatter is `fun _ => none`).  A value contributes
only when the cell has exactly one value line, is not a header cell and the
parse succeeds.  (Go would panic on a row shorter than the column index;
such rows are modelled as contributing nothing — the theorems only apply
the function to well-formed tables.) -/
def getColumnSum (parse : List Char → Option ℚ) (rows : List GoWidget) (col : ℕ) : ℚ :=
  (rows.map fun r =>
    match r.children.get? col with
    | some cell =>
      if cell.data.isHeader then 0
      else
        match cell.data.valueLines with
        | some [l] => (parse l).getD 0
        | _ => 0
    | none => 0).sum

/-- The row-fitting scan of `splitTable`: length of the longest prefix of
rows whose bottom (`currentY + row.outerY + row.outerHeight`) stays within
the available inner height (the Go loop breaks at the first overflow). -/
def fitCount (innerH curY : ℚ) : List GoWidget → ℕ
  | [] => 0
  | r :: rs =>
    if curY + r.data.calcd.outerY + r.data.calcd.outerHeight > innerH then 0
    else fitCount innerH curY rs + 1

/-- The row part of Go `resetRowsY`: stack the rows from `y` by their outer
heights, rederiving the inner/content y of each. -/
def renumberRowsFrom (y : ℚ) : List GoWidget → List GoWidget
  | [] => []
  | r :: rs =>
    let rd := adjustCalculatedY { r.data with calcd := { r.data.calcd with outerY := y } }
    .node rd r.children :: renumberRowsFrom (y + rd.calcd.outerHeight) rs

/-- State of a freshly created table clone (Go `deepCloneWidget(table)`
followed by `recalculateFromInnerHeight` and the table part of
`resetRowsY`, plus the `PageNumber` assignment). -/
def subsequentCloneBase (tmpl : WData) (pageNo : ℕ) : WData :=
  let t1 := recalculateFromInnerHeight tmpl
  let t2 := adjustCalculatedY { t1 with calcd := { t1.calcd with outerY := 0 } }
  { t2 with pageNumber := pageNo }

/-- The main `splitTable` loop.  `base` is the state of the current clone as
created (for the first iteration: the incoming table, whose children were
already detached); `stallEmpty` records that a fitting-failure break leaves
the first clone with no rows (Go set `w.Children = nil` before the loop).
A fitting failure on a later clone leaves that clone holding all remaining
rows, with its carry fields and heights untouched since creation. -/
def splitTableLoop (tmpl : WData) (hdr : Option GoWidget)
    (parse : List Char → Option ℚ) (innerH : ℚ) :
    ℕ → WData → Bool → ℕ → ℚ → List GoWidget → Option ℚ → Option (List GoWidget)
  | 0, _, _, _, _, _, _ => none
  | fuel + 1, base, stallEmpty, pageNo, curY, rows, cl =>
    let idx := fitCount innerH curY rows
    if idx = 0 then some [.node base (if stallEmpty then [] else rows)]
    else
      let currentRows := setAlternateColorL (rows.take idx) tmpl.alternateColor
      let totalH := (currentRows.map fun r => r.data.calcd.outerHeight).sum
      let pc :=
        if 0 ≤ tmpl.carryColumn then
          let sum := getColumnSum parse currentRows tmpl.carryColumn.toNat
          let nextV := cl.getD 0 + sum
          ({ base with carryLast := cl, carryNext := some nextV }, some nextV)
        else (base, cl)
      let d1 := recalculateFromInnerHeight
        { pc.1 with
          pageNumber := pageNo
          calcd := { pc.1.calcd with innerHeight := totalH } }
      let clone := GoWidget.node d1 currentRows
      let remaining := rows.drop idx
      if remaining.isEmpty then some [clone]
      else
        let nextRows := renumberRowsFrom 0 (hdr.toList ++ remaining)
        match splitTableLoop tmpl hdr parse innerH fuel
            (subsequentCloneBase tmpl (pageNo + 1)) false (pageNo + 1) 0 nextRows pc.2 with
        | none => none
        | some cs => some (clone :: cs)

/-- Clearing the final clone's `CarryNext` (Go: `currentTable.CarryNext =
nil` after the loop, where `currentTable` is the last clone). -/
def clearLastCarryNext : List GoWidget → List GoWidget
  | [] => []
  | [c] => [.node { c.data with carryNext := none } c.children]
  | c :: cs => c :: clearLastCarryNext cs

/-- Go `Layouter.splitTable`: produce the table clones in page order.  The
available height is the page's inner height less the table's vertical
margins; with declared `<columns>` the parser guarantees a synthetic header
row at index 0, which is re-prepended to the remaining rows of every later
clone (Go would panic if `Columns` were non-empty with no rows, hence
`head?`). -/
def splitTable (fuel : ℕ) (parse : List Char → Option ℚ) (w : GoWidget)
    (pageInnerH curY : ℚ) : Option (List GoWidget) :=
  let mrg := match w.data.margin with
    | some m => m.top + m.bottom
    | none => 0
  let innerH := pageInnerH - mrg
  let hdr := if w.data.columns > 0 then w.children.head? else none
  let tmpl := w.data
  match splitTableLoop tmpl hdr parse innerH fuel tmpl true 0 curY w.children none with
  | none => none
  | some cs => some (clearLastCarryNext cs)

/-! ## Page splitting (Go `splitPage`, `resetY`, `copyPage` in `layout.go`)

An output page is modelled by its inherited `resetPageNumbers` flag and its
list of placed children; the header/footer/style fields that `copyPage`
clones are not read by any claim and are omitted.  The walk is fuelled by
the number of children (each iteration consumes one child); the table
branch additionally threads the `splitTable` fuel. -/

/-- An output page produced by pagination. -/
structure SPage where
  reset : Bool
  children : List GoWidget

/-- Go `resetY`: flow the widgets with undeclared (zero) `y` from
`currentY`, stepping by outer height plus the gap; widgets with a declared
`y` are left untouched and do not advance the cursor. -/
def resetYs (y0 gap : ℚ) : List GoWidget → List GoWidget
  | [] => []
  | w :: ws =>
    if w.data.y = 0 then
      let wd := adjustCalculatedY { w.data with calcd := { w.data.calcd with outerY := y0 } }
      .node wd w.children :: resetYs (y0 + wd.calcd.outerHeight + gap) gap ws
    else w :: resetYs y0 gap ws

/-- Intermediate state of the `splitPage` walk. -/
structure SplitSt where
  y : ℚ
  cur : SPage
  done : List SPage
  rem : List GoWidget

/-- The `splitPage` child walk.  Per child: open a fresh page when there is
none yet or the cursor has reached the page bottom (re-flowing the pending
children from 0); move a non-table child that would overflow a non-empty
page onto a fresh page (again re-flowing); place the child; a table that
would cross the bottom minus its break margin is handed to `splitTable`,
its clones are placed one per page, and on a table page break the pending
children are re-flowed after the last clone. -/
def splitPageGo (tFuel : ℕ) (parse : List Char → Option ℚ) (pageReset : Bool)
    (gap pageBottom : ℚ) :
    ℕ → List GoWidget → ℚ → Option SPage → List SPage → Option (List SPage)
  | _, [], _, cur, done => some (done ++ cur.toList)
  | 0, _ :: _, _, _, _ => none
  | n + 1, w :: rest, curY0, cur0, done0 =>
    let st1 : SplitSt :=
      match cur0 with
      | none => ⟨0, ⟨pageReset, []⟩, done0, resetYs 0 gap (w :: rest)⟩
      | some cp =>
        if curY0 ≥ pageBottom then
          ⟨0, ⟨pageReset, []⟩, done0 ++ [cp], resetYs 0 gap (w :: rest)⟩
        else ⟨curY0, cp, done0, w :: rest⟩
    match st1.rem with
    | [] => some (st1.done ++ [st1.cur])
    | w1 :: rest1 =>
      let bottom := st1.y + w1.data.calcd.outerHeight
      let st2 : SplitSt :=
        if ¬ st1.cur.children.isEmpty ∧ w1.data.wtype ≠ "table" ∧ bottom > pageBottom then
          ⟨0, ⟨false, []⟩, st1.done ++ [st1.cur], resetYs 0 gap (w1 :: rest1)⟩
        else st1
      match st2.rem with
      | [] => some (st2.done ++ [st2.cur])
      | w2 :: rest2 =>
        if w2.data.wtype = "table" ∧
            st2.y + w2.data.calcd.outerHeight + w2.data.breakMargin > pageBottom then
          match splitTable tFuel parse w2 pageBottom st2.y with
          | none => none
          | some [] => none
          | some (c0 :: cRest) =>
            let curA : SPage := ⟨st2.cur.reset, st2.cur.children ++ [c0]⟩
            let lastClone := cRest.getLastD c0
            let y3 := lastClone.data.calcd.outerHeight + (if gap > 0 then gap else 0)
            if cRest.isEmpty then
              splitPageGo tFuel parse pageReset gap pageBottom n rest2 y3 (some curA) st2.done
            else
              let newPages : List SPage := cRest.map fun c => ⟨false, [c]⟩
              let doneB := st2.done ++ [curA] ++ newPages.dropLast
              let curB := newPages.getLastD ⟨false, []⟩
              let rest3 := resetYs y3 gap rest2
              splitPageGo tFuel parse pageReset gap pageBottom n rest3 y3 (some curB) doneB
        else
          let y3 := st2.y + w2.data.calcd.outerHeight + (if gap > 0 then gap else 0)
          splitPageGo tFuel parse pageReset gap pageBottom n rest2 y3
            (some ⟨st2.cur.reset, st2.cur.children ++ [w2]⟩) st2.done

/-- Go `Layouter.splitPage`: sort the children by computed outer y (Go uses
`sort.Slice`, whose order on equal keys is unspecified; `mergeSort` fixes
one such order) and walk them.  The fuel for the walk is its own length;
`tFuel` bounds only the `splitTable` loop. -/
def splitPage (tFuel : ℕ) (parse : List Char → Option ℚ) (pageReset : Bool)
    (gap pageInnerH : ℚ) (children : List GoWidget) : Option (List SPage) :=
  let sorted := children.mergeSort
    (fun a b => decide (a.data.calcd.outerY ≤ b.data.calcd.outerY))
  splitPageGo tFuel parse pageReset gap pageInnerH sorted.length sorted 0 none []

/-! ## Page-number interpolation (Go `setPageNumbers`,
`interpolatePageNumbers` in `layout.go`) -/

/-- Go `strings.ReplaceAll`, scanning left to right and skipping over each
replacement, fuelled by the string length (every step consumes at least one
character of the subject).  Go's empty-pattern behaviour (inserting the
replacement between characters) is not modelled; the only patterns used are
non-empty. -/
def replaceAllAux (pat rep : List Char) : ℕ → List Char → List Char
  | _, [] => []
  | 0, s => s
  | fuel + 1, c :: cs =>
    if h : pat ≠ [] ∧ pat.isPrefixOf (c :: cs) then
      rep ++ replaceAllAux pat rep (fuel + 1 - pat.length) (List.drop pat.length (c :: cs))
    else c :: replaceAllAux pat rep fuel cs
termination_by fuel s => fuel
decreasing_by
  · have hp : pat.length ≠ 0 := by
      intro hp0
      exact h.1 (List.eq_nil_of_length_eq_zero hp0)
    omega
  · omega

/-- Go `strings.ReplaceAll`. -/
def replaceAll (s pat rep : List Char) : List Char :=
  replaceAllAux pat rep s.length s

/-- The literal `{page}` placeholder. -/
def pagePat : List Char := "\x7bpage\x7d".data

/-- The literal `{pages}` placeholder. -/
def pagesPat : List Char := "\x7bpages\x7d".data

/-- The per-line substitution of `interpolatePageNumbers`: `{page}` first,
then `{pages}` (the two do not interfere: `{page}` is not a substring of
`{pages}`). -/
def interpLine (pg pgs l : List Char) : List Char :=
  replaceAll (replaceAll l pagePat pg) pagesPat pgs

/-- Go `interpolatePageNumbers`: when `ValueLines` is non-nil, substitute in
the lines and stop — the children are not visited; otherwise recurse. -/
def interpolatePageNumbers (pg pgs : List Char) : GoWidget → GoWidget
  | .node d cs =>
    match d.valueLines with
    | some ls => .node { d with valueLines := some (ls.map (interpLine pg pgs)) } cs
    | none => .node d (cs.attach.map fun c => interpolatePageNumbers pg pgs c.1)
decreasing_by
  have := List.sizeOf_lt_of_mem c.2
  simp only [GoWidget.node.sizeOf_spec]
  omega

/-- A laid-out page as consumed by `setPageNumbers`: its (inherited)
`resetPageNumbers` flag and its header and footer widgets. -/
structure PNPage where
  reset : Bool
  header : Option GoWidget
  footer : Option GoWidget

/-- Decimal digits of a page count (Go `fmt.Sprintf("%d", n)`). -/
def natChars (n : ℕ) : List Char := (Nat.repr n).data

/-- Accumulator loop of the grouping phase of `setPageNumbers`: `acc` is
the (always non-empty) group under construction. -/
def groupPagesAux : List PNPage → List PNPage → List (List PNPage)
  | acc, [] => [acc]
  | acc, p :: ps =>
    if p.reset then acc :: groupPagesAux [p] ps
    else groupPagesAux (acc ++ [p]) ps

/-- The grouping phase of Go `setPageNumbers`: page 0 opens the first
group, every later page with `ResetPageNumbers` opens a new group.  (The Go
loop's guard against pushing an empty group can only trigger at index 0,
which the wrapper handles.) -/
def groupPages : List PNPage → List (List PNPage)
  | [] => []
  | p :: ps => groupPagesAux [p] ps

/-- The per-page interpolation of `setPageNumbers` (1-based index `i` in a
group of `n` pages). -/
def interpPage (i n : ℕ) (p : PNPage) : PNPage :=
  { p with
    header := p.header.map (interpolatePageNumbers (natChars i) (natChars n))
    footer := p.footer.map (interpolatePageNumbers (natChars i) (natChars n)) }

/-- Go `setPageNumbers`: group the pages, then interpolate each page's
header and footer with its 1-based index within the group and the group
size. -/
def setPageNumbers (pages : List PNPage) : List PNPage :=
  ((groupPages pages).map fun g => g.mapIdx fun i p => interpPage (i + 1) g.length p).flatten

/-- Specification-side grouping (the spec's words): a group is a page
together with the following run of non-reset pages.  Compared against
`groupPages` in the C6 theorem. -/
def specGroups : List PNPage → List (List PNPage)
  | [] => []
  | p :: ps =>
    (p :: ps.takeWhile fun q => !q.reset) ::
      specGroups (ps.dropWhile fun q => !q.reset)
termination_by l => l.length
decreasing_by
  have := dropWhile_length_le (fun q : PNPage => !q.reset) ps
  simp
  omega

/-! # Claim theorems -/

/-! ## C10 — invalid numeric attributes parse to 0, not the default -/

/-- C10: for every numeric attribute, a non-empty value that does not parse
as a float yields 0 rather than the documented default (the parse error is
silently discarded); the default applies exactly when the attribute is
empty or absent. -/
theorem C10_parseFloatAttr_invalid_yields_zero :
    (∀ (v : List Char) (d : ℚ), v ≠ [] → goParseFloat v = none →
      parseFloatAttr v d = 0) ∧
    (∀ d : ℚ, parseFloatAttr [] d = d) := by
  constructor
  · intro v d hv hparse
    simp [parseFloatAttr, hv, parseFloat, hparse]
  · intro d
    simp [parseFloatAttr]

/-- Witness for C10 at `width="abc"` with documented default 5: the result
is 0, not 5; the empty value yields the default. -/
theorem C10_witness :
    parseFloatAttr "abc".data 5 = 0 ∧ parseFloatAttr [] 5 = 5 ∧ (0 : ℚ) ≠ 5 :=
  ⟨C10_parseFloatAttr_invalid_yields_zero.1 "abc".data 5 (by decide) (by decide),
   C10_parseFloatAttr_invalid_yields_zero.2 5, by norm_num⟩

/-! ## C8 — color attribute parsing -/

theorem toNat_ofNat_lt (a : ℕ) (h : a < 128) : (Char.ofNat a).toNat = a := by
  have hv : a < 55296 ∨ 57343 < a ∧ a < 1114112 := Or.inl (by omega)
  simp [Char.ofNat, hv, Char.ofNatAux, Char.toNat, UInt32.toNat, BitVec.toNat_ofNatLt]

theorem charBytes_ofNat_single (b : ℕ) (h : b < 128) : charBytes (Char.ofNat b) = [b] := by
  simp [charBytes, toNat_ofNat_lt b h, h]

theorem charBytes_ascii (c : Char) (h : c.toNat < 128) : charBytes c = [c.toNat] := by
  simp [charBytes, h]

theorem hexByteVal_lt {b vb : ℕ} (h : hexByteVal b = some vb) : b < 128 := by
  unfold hexByteVal at h
  split_ifs at h <;> omega

theorem parseHex_two {a b va vb : ℕ}
    (ha : hexByteVal a = some va) (hb : hexByteVal b = some vb) :
    parseHex [a, b] = 16 * va + vb := by
  have hpa : a ≠ 43 := by rintro rfl; revert ha; simp [hexByteVal]
  have hma : a ≠ 45 := by rintro rfl; revert ha; simp [hexByteVal]
  unfold parseHex
  split
  · rename_i heq; rw [List.cons.injEq] at heq; exact absurd heq.1 hpa
  · rename_i heq; rw [List.cons.injEq] at heq; exact absurd heq.1 hma
  · simp only [parseHexNat, parseHexNatAux, ha, hb, Option.getD_some]
    push_cast
    ring

/-- C8 (amended): `parseColor` produces a color exactly for a leading `'#'`
followed by 3 or 6 UTF-8 BYTES — Go measures `len(v)` on the byte string,
not the rune count; on ASCII hexadecimal digits the components are the
usual values, with single digits duplicated (`#RGB` ≘ `#RRGGBB`). -/
theorem C8_parseColor_byte_forms :
    (∀ v : List Char, (parseColor v).isSome ↔
      (v.head? = some '#' ∧
        ((strBytes v.tail).length = 3 ∨ (strBytes v.tail).length = 6))) ∧
    (∀ (a b c : Char) (va vb vc : ℕ),
      hexByteVal a.toNat = some va → hexByteVal b.toNat = some vb →
      hexByteVal c.toNat = some vc →
      parseColor ['#', a, b, c] = some ⟨17 * va, 17 * vb, 17 * vc⟩) ∧
    (∀ (a b c d e g : Char) (va vb vc vd ve vg : ℕ),
      hexByteVal a.toNat = some va → hexByteVal b.toNat = some vb →
      hexByteVal c.toNat = some vc → hexByteVal d.toNat = some vd →
      hexByteVal e.toNat = some ve → hexByteVal g.toNat = some vg →
      parseColor ['#', a, b, c, d, e, g] =
        some ⟨16 * va + vb, 16 * vc + vd, 16 * ve + vg⟩) := by
  refine ⟨?_, ?_, ?_⟩
  · intro v
    rcases v with _ | ⟨c0, r⟩
    · simp [parseColor]
    · by_cases hc : c0 = '#'
      · subst hc
        rcases hbs : strBytes r with _ | ⟨a, _ | ⟨b, _ | ⟨c, _ | ⟨d, _ | ⟨e, _ | ⟨g, _ | ⟨h, t⟩⟩⟩⟩⟩⟩⟩ <;>
          simp [parseColor, hbs]
      · unfold parseColor
        split
        · rename_i heq; rw [List.cons.injEq] at heq; exact absurd heq.1 hc
        · rename_i heq
          simp [hc]
  · intro a b c va vb vc ha hb hc
    have hba := charBytes_ascii a (hexByteVal_lt ha)
    have hbb := charBytes_ascii b (hexByteVal_lt hb)
    have hbc := charBytes_ascii c (hexByteVal_lt hc)
    have hsa := charBytes_ofNat_single a.toNat (hexByteVal_lt ha)
    have hsb := charBytes_ofNat_single b.toNat (hexByteVal_lt hb)
    have hsc := charBytes_ofNat_single c.toNat (hexByteVal_lt hc)
    have e1 := parseHex_two ha ha
    have e2 := parseHex_two hb hb
    have e3 := parseHex_two hc hc
    simp only [parseColor, strBytes, List.map_cons, List.map_nil, hba, hbb, hbc,
      List.flatten_cons, List.flatten_nil, List.cons_append, List.nil_append,
      hsa, hsb, hsc, e1, e2, e3, Option.some.injEq, GoColor.mk.injEq]
    refine ⟨by ring, by ring, by ring⟩
  · intro a b c d e g va vb vc vd ve vg ha hb hc hd he hg
    have hba := charBytes_ascii a (hexByteVal_lt ha)
    have hbb := charBytes_ascii b (hexByteVal_lt hb)
    have hbc := charBytes_ascii c (hexByteVal_lt hc)
    have hbd := charBytes_ascii d (hexByteVal_lt hd)
    have hbe := charBytes_ascii e (hexByteVal_lt he)
    have hbg := charBytes_ascii g (hexByteVal_lt hg)
    have e1 := parseHex_two ha hb
    have e2 := parseHex_two hc hd
    have e3 := parseHex_two he hg
    simp only [parseColor, strBytes, List.map_cons, List.map_nil, hba, hbb, hbc,
      hbd, hbe, hbg, List.flatten_cons, List.flatten_nil, List.cons_append,
      List.nil_append, e1, e2, e3]

/-- C8 counterexample: `#éa` has two runes after `'#'` (neither 3 nor 6)
yet parses to a color, while `#aéb` has three runes after `'#'` yet is
rejected — `len(v)` in Go counts UTF-8 bytes, not characters. -/
theorem C8_counterexample :
    parseColor ['#', 'é', 'a'] = some ⟨0, 0, 170⟩ ∧
    (['é', 'a'] : List Char).length = 2 ∧
    parseColor ['#', 'a', 'é', 'b'] = none ∧
    (['a', 'é', 'b'] : List Char).length = 3 := by
  refine ⟨by decide, rfl, by decide, rfl⟩

/-- Witness for C8 (amended): `#1a2B3f` parses to (26, 43, 63), `#abc` to
(170, 187, 204), and the acceptance shape at two rejected inputs. -/
theorem C8_witness :
    parseColor "#1a2B3f".data = some ⟨26, 43, 63⟩ ∧
    parseColor "#abc".data = some ⟨170, 187, 204⟩ ∧
    ¬ (parseColor "1a2B3f".data).isSome ∧ ¬ (parseColor "#1a2B".data).isSome := by
  refine ⟨?_, ?_, ?_, ?_⟩
  · have h := C8_parseColor_byte_forms.2.2 '1' 'a' '2' 'B' '3' 'f'
      1 10 2 11 3 15 (by decide) (by decide) (by decide) (by decide) (by decide)
      (by decide)
    rw [show ("#1a2B3f".data : List Char) = ['#', '1', 'a', '2', 'B', '3', 'f'] from
      by decide]
    rw [h]
    norm_num
  · have h := C8_parseColor_byte_forms.2.1 'a' 'b' 'c'
      10 11 12 (by decide) (by decide) (by decide)
    rw [show ("#abc".data : List Char) = ['#', 'a', 'b', 'c'] from by decide]
    rw [h]
    norm_num
  · rw [C8_parseColor_byte_forms.1]
    decide
  · rw [C8_parseColor_byte_forms.1]
    decide

/-! ## C9 — page-level character data is parsed but dropped by the wrap pass -/

theorem trimChars_eq_nil_iff (s : List Char) :
    trimChars s = [] ↔ ∀ c ∈ s, isSpaceChar c = true := by
  unfold trimChars
  rw [List.reverse_eq_nil_iff, List.dropWhile_eq_nil_iff]
  constructor
  · intro h c hc
    have hsplit := List.takeWhile_append_dropWhile (p := isSpaceChar) (l := s)
    rw [← hsplit] at hc
    rcases List.mem_append.mp hc with h1 | h2
    · exact List.mem_takeWhile_imp h1
    · exact h c (List.mem_reverse.mpr h2)
  · intro h c hc
    exact h c ((List.dropWhile_sublist _).mem (List.mem_reverse.mp hc))

theorem splitOnChar_ne_nil (sep : Char) (s : List Char) :
    splitOnChar sep s ≠ [] := by
  induction s with
  | nil => simp [splitOnChar]
  | cons c cs ih =>
    by_cases hc : c = sep
    · simp [splitOnChar, hc]
    · rw [splitOnChar, if_neg hc]
      rcases h : splitOnChar sep cs with _ | ⟨l, ls⟩
      · exact absurd h ih
      · simp

theorem splitOnChar_space (text : List Char)
    (h : ∀ part ∈ splitOnChar '\n' text, ∀ c ∈ part, isSpaceChar c = true) :
    ∀ c ∈ text, isSpaceChar c = true := by
  induction text with
  | nil => simp
  | cons c cs ih =>
    intro x hx
    by_cases hc : c = '\n'
    · subst hc
      rw [splitOnChar, if_pos rfl] at h
      rcases List.mem_cons.mp hx with rfl | hx'
      · decide
      · exact ih (fun part hp => h part (List.mem_cons_of_mem _ hp)) x hx'
    · rw [splitOnChar, if_neg hc] at h
      rcases hsp : splitOnChar '\n' cs with _ | ⟨l, ls⟩
      · exact absurd hsp (splitOnChar_ne_nil _ _)
      · rw [hsp] at h
        rcases List.mem_cons.mp hx with rfl | hx'
        · exact h (x :: l) (List.mem_cons_self _ _) x (List.mem_cons_self _ _)
        · refine ih ?_ x hx'
          rw [hsp]
          intro part hp
          rcases List.mem_cons.mp hp with rfl | hp'
          · intro d hd
            exact h (c :: part) (List.mem_cons_self _ _) d (List.mem_cons_of_mem _ hd)
          · exact h part (List.mem_cons_of_mem _ hp')

theorem splitClean_ne_nil_of_trim (text : List Char) (h : trimChars text ≠ []) :
    splitClean text ≠ [] := by
  intro hsc
  apply h
  rw [trimChars_eq_nil_iff]
  apply splitOnChar_space
  intro part hp c hc
  have hall := List.filter_eq_nil_iff.mp hsc
  have hmem : trimChars part ∈ (splitOnChar '\n' text).map trimChars :=
    List.mem_map_of_mem trimChars hp
  have := hall _ hmem
  simp only [ne_eq, decide_not, Bool.not_eq_eq_eq_not, Bool.not_true,
    decide_eq_false_iff_not, not_not] at this
  rw [trimChars_eq_nil_iff] at this
  exact this c hc

theorem wrapText_empty_value (d : WData) (h : d.value = []) :
    (wrapText d).valueLines = some [] := by
  unfold wrapText
  simp only [h, ne_eq, not_true_eq_false, if_false, reduceIte]
  split
  · simp [recalculateFromInnerHeight]
  · split <;> simp

/-- C9: character data directly under a `<page>` becomes a `div` whose
`ValueLines` are set (non-empty) while `Value` stays empty; the wrap pass,
which rebuilds `ValueLines` from `Value`, therefore replaces them with the
empty list — the text is dropped from the laid-out output. -/
theorem C9_page_level_text_dropped (text : List Char) (h : trimChars text ≠ []) :
    parseCharData text =
      some (.node { wtype := "div", valueLines := some (splitClean text) } []) ∧
    splitClean text ≠ [] ∧
    (∀ d : WData, d.value = [] → (wrapText d).valueLines = some []) ∧
    reflowTexts (.node { wtype := "div", valueLines := some (splitClean text) } []) =
      .node (wrapText { wtype := "div", valueLines := some (splitClean text) }) [] ∧
    (wrapText { wtype := "div", valueLines := some (splitClean text) }).valueLines =
      some [] := by
  have hne := splitClean_ne_nil_of_trim text h
  refine ⟨?_, hne, fun d hd => wrapText_empty_value d hd, ?_, ?_⟩
  · simp [parseCharData, h]
  · rcases hsc : splitClean text with _ | ⟨l, ls⟩
    · exact absurd hsc hne
    · simp [reflowTexts]
  · exact wrapText_empty_value _ rfl

/-- Witness for C9 at the text `"Hi"`. -/
theorem C9_witness :
    parseCharData "Hi".data =
      some (.node { wtype := "div", valueLines := some (splitClean "Hi".data) } []) ∧
    splitClean "Hi".data ≠ [] ∧
    (wrapText { wtype := "div", valueLines := some (splitClean "Hi".data) }).valueLines =
      some [] := by
  have h := C9_page_level_text_dropped "Hi".data (by decide)
  exact ⟨h.1, h.2.1, h.2.2.2.2⟩

/-! ## C1 — box-model metric invariants -/

/-- Horizontal extent of an optional box (left + right; nil is 0). -/
def boxLR : Option GoBox → ℚ
  | some m => m.left + m.right
  | none => 0

/-- Vertical extent of an optional box (top + bottom; nil is 0). -/
def boxTB : Option GoBox → ℚ
  | some m => m.top + m.bottom
  | none => 0

/-- All components of an optional box are non-negative. -/
def boxNN : Option GoBox → Prop
  | some m => 0 ≤ m.top ∧ 0 ≤ m.right ∧ 0 ≤ m.bottom ∧ 0 ≤ m.left
  | none => True

theorem clamp_eq_max (x : ℚ) : (if x < 0 then 0 else x) = max x 0 := by
  rcases lt_or_le x 0 with h | h
  · simp [h, max_eq_right h.le]
  · simp [not_lt.mpr h, max_eq_left h]

/-- The box metrics the claim asserts for every widget after layout: outer
equals border-box plus margin, inner equals border-box minus padding
clamped at 0, and all sizes non-negative. -/
def boxMetricsClaim (d : WData) : Prop :=
  d.calcd.outerWidth = d.calcd.width + boxLR d.margin ∧
  d.calcd.outerHeight = d.calcd.height + boxTB d.margin ∧
  d.calcd.innerWidth = max (d.calcd.width - boxLR d.padding) 0 ∧
  d.calcd.innerHeight = max (d.calcd.height - boxTB d.padding) 0 ∧
  0 ≤ d.calcd.width ∧ 0 ≤ d.calcd.height ∧ 0 ≤ d.calcd.innerWidth ∧
  0 ≤ d.calcd.innerHeight ∧ 0 ≤ d.calcd.outerWidth ∧ 0 ≤ d.calcd.outerHeight

/-- C1 counterexample: a widget with 300pt left and right margins inside a
595pt page keeps outer width 595 but gets border-box width −5 from
`recalculateFromOuterWidth` during the width pass — computed sizes are not
all non-negative after layout. -/
theorem C1_counterexample :
    ¬ boxMetricsClaim
      (initWidgetsWidth
        (initCalculatedInfo (.node { margin := some ⟨0, 300, 0, 300⟩ } []) none)
        595).data := by
  intro hclaim
  have hw := hclaim.2.2.2.2.1
  have : (initWidgetsWidth
      (initCalculatedInfo (.node { margin := some ⟨0, 300, 0, 300⟩ } []) none)
      595).data.calcd.width = -5 := by
    rw [initCalculatedInfo]
    simp only [List.attach_nil, List.map_nil]
    rw [initWidgetsWidth]
    simp [initCalcData, boldSuffix, initWidgetsWidthData, recalculateFromOuterWidth,
      addjustCalculatedWidth, addjustCalculatedHeight]
    norm_num
  rw [this] at hw
  norm_num at hw

/-- C1 (amended): for each of the box-model conversion helpers the
relations `outer = border + margin` and `inner = max (border − padding) 0`
hold, and all sizes are non-negative **provided** the border-box size is
non-negative (and the boxes are); the code never clamps the border-box
size itself, so a margin larger than the available outer size drives it
negative (see the counterexample). -/
theorem C1_box_metric_invariants (d : WData)
    (hpn : boxNN d.padding) (hmn : boxNN d.margin) :
    ((addjustCalculatedWidth d).calcd.outerWidth =
        (addjustCalculatedWidth d).calcd.width + boxLR d.margin) ∧
    (0 ≤ (addjustCalculatedWidth d).calcd.width →
      (addjustCalculatedWidth d).calcd.innerWidth =
        max ((addjustCalculatedWidth d).calcd.width - boxLR d.padding) 0 ∧
      0 ≤ (addjustCalculatedWidth d).calcd.innerWidth ∧
      0 ≤ (addjustCalculatedWidth d).calcd.outerWidth) ∧
    ((addjustCalculatedHeight d).calcd.outerHeight =
        (addjustCalculatedHeight d).calcd.height + boxTB d.margin) ∧
    (0 ≤ (addjustCalculatedHeight d).calcd.height →
      (addjustCalculatedHeight d).calcd.innerHeight =
        max ((addjustCalculatedHeight d).calcd.height - boxTB d.padding) 0 ∧
      0 ≤ (addjustCalculatedHeight d).calcd.innerHeight ∧
      0 ≤ (addjustCalculatedHeight d).calcd.outerHeight) ∧
    ((recalculateFromOuterWidth d).calcd.outerWidth =
        (recalculateFromOuterWidth d).calcd.width + boxLR d.margin) ∧
    (0 ≤ (recalculateFromOuterWidth d).calcd.width →
      (recalculateFromOuterWidth d).calcd.innerWidth =
        max ((recalculateFromOuterWidth d).calcd.width - boxLR d.padding) 0 ∧
      0 ≤ (recalculateFromOuterWidth d).calcd.innerWidth ∧
      0 ≤ (recalculateFromOuterWidth d).calcd.outerWidth) ∧
    ((recalculateFromOuterHeight d).calcd.outerHeight =
        (recalculateFromOuterHeight d).calcd.height + boxTB d.margin) ∧
    (0 ≤ (recalculateFromOuterHeight d).calcd.height →
      (recalculateFromOuterHeight d).calcd.innerHeight =
        max ((recalculateFromOuterHeight d).calcd.height - boxTB d.padding) 0 ∧
      0 ≤ (recalculateFromOuterHeight d).calcd.innerHeight ∧
      0 ≤ (recalculateFromOuterHeight d).calcd.outerHeight) ∧
    ((recalculateFromInnerHeight d).calcd.outerHeight =
        (recalculateFromInnerHeight d).calcd.height + boxTB d.margin) ∧
    (0 ≤ d.calcd.innerHeight →
      (recalculateFromInnerHeight d).calcd.innerHeight =
        max ((recalculateFromInnerHeight d).calcd.height - boxTB d.padding) 0 ∧
      0 ≤ (recalculateFromInnerHeight d).calcd.innerHeight ∧
      0 ≤ (recalculateFromInnerHeight d).calcd.height ∧
      0 ≤ (recalculateFromInnerHeight d).calcd.outerHeight) := by
  refine ⟨?_, ?_, ?_, ?_, ?_, ?_, ?_, ?_, ?_, ?_⟩
  · unfold addjustCalculatedWidth
    rcases hp : d.padding with _ | pb <;> rcases hm : d.margin with _ | mb <;>
      simp [hp, hm, boxLR] <;> ring
  · intro h
    unfold addjustCalculatedWidth at h ⊢
    rcases hp : d.padding with _ | pb <;> rcases hm : d.margin with _ | mb <;>
      rw [hp] at h <;>
      simp only [hp, hm, boxLR, boxNN, clamp_eq_max, sub_zero] at hpn hmn h ⊢ <;>
      refine ⟨?_, ?_, ?_⟩ <;>
      first
        | trivial
        | exact h
        | exact le_max_right _ _
        | rw [max_eq_left h]
        | (rcases hmn with ⟨m1, m2, m3, m4⟩; linarith)
  · unfold addjustCalculatedHeight
    rcases hp : d.padding with _ | pb <;> rcases hm : d.margin with _ | mb <;>
      simp [hp, hm, boxTB] <;> ring
  · intro h
    unfold addjustCalculatedHeight at h ⊢
    rcases hp : d.padding with _ | pb <;> rcases hm : d.margin with _ | mb <;>
      rw [hp] at h <;>
      simp only [hp, hm, boxTB, boxNN, clamp_eq_max, sub_zero] at hpn hmn h ⊢ <;>
      refine ⟨?_, ?_, ?_⟩ <;>
      first
        | trivial
        | exact h
        | exact le_max_right _ _
        | rw [max_eq_left h]
        | (rcases hmn with ⟨m1, m2, m3, m4⟩; linarith)
  · unfold recalculateFromOuterWidth
    rcases hp : d.padding with _ | pb <;> rcases hm : d.margin with _ | mb <;>
      simp [hp, hm, boxLR] <;> ring
  · intro h
    unfold recalculateFromOuterWidth at h ⊢
    rcases hp : d.padding with _ | pb <;> rcases hm : d.margin with _ | mb <;>
      rw [hp, hm] at h <;>
      simp only [hp, hm, boxLR, boxNN, clamp_eq_max, sub_zero] at hpn hmn h ⊢ <;>
      refine ⟨?_, ?_, ?_⟩ <;>
      first
        | trivial
        | exact h
        | exact le_max_right _ _
        | rw [max_eq_left h]
        | (rcases hmn with ⟨m1, m2, m3, m4⟩; linarith)
  · unfold recalculateFromOuterHeight
    rcases hp : d.padding with _ | pb <;> rcases hm : d.margin with _ | mb <;>
      simp [hp, hm, boxTB] <;> ring
  · intro h
    unfold recalculateFromOuterHeight at h ⊢
    rcases hp : d.padding with _ | pb <;> rcases hm : d.margin with _ | mb <;>
      rw [hp, hm] at h <;>
      simp only [hp, hm, boxTB, boxNN, clamp_eq_max, sub_zero] at hpn hmn h ⊢ <;>
      refine ⟨?_, ?_, ?_⟩ <;>
      first
        | trivial
        | exact h
        | exact le_max_right _ _
        | rw [max_eq_left h]
        | (rcases hmn with ⟨m1, m2, m3, m4⟩; linarith)
  · unfold recalculateFromInnerHeight
    rcases hp : d.padding with _ | pb <;> rcases hm : d.margin with _ | mb <;>
      simp [hp, hm, boxTB] <;> ring
  · intro h
    unfold recalculateFromInnerHeight
    rcases hp : d.padding with _ | pb <;> rcases hm : d.margin with _ | mb <;>
      simp only [hp, hm, boxTB, boxNN, clamp_eq_max, sub_zero] at hpn hmn ⊢ <;>
      refine ⟨?_, ?_, ?_, ?_⟩ <;>
      first
        | trivial
        | exact h
        | rw [max_eq_left h]
        | (rw [add_sub_cancel_right, max_eq_left h])
        | (rw [max_eq_left (by linarith)]; linarith)
        | (rcases hpn with ⟨p1, p2, p3, p4⟩; linarith)
        | (rcases hpn with ⟨p1, p2, p3, p4⟩; rw [max_eq_left (by linarith)]; linarith)
        | (rcases hmn with ⟨m1, m2, m3, m4⟩; linarith)
        | (rcases hpn with ⟨p1, p2, p3, p4⟩; rcases hmn with ⟨m1, m2, m3, m4⟩;
            linarith)

/-- Concrete widget data for the C1 witness: border-box 100×50, padding 5,
margin 10, inner height 40. -/
def c1ExData : WData :=
  { width := 100,
    padding := some ⟨5, 5, 5, 5⟩,
    margin := some ⟨10, 10, 10, 10⟩,
    calcd := { width := 100, height := 50, innerHeight := 40 } }

/-- Witness for C1 (amended) at `c1ExData`. -/
theorem C1_witness :
    boxNN c1ExData.padding ∧ boxNN c1ExData.margin ∧
    0 ≤ (addjustCalculatedWidth c1ExData).calcd.width ∧
    (addjustCalculatedWidth c1ExData).calcd.outerWidth =
      (addjustCalculatedWidth c1ExData).calcd.width + boxLR c1ExData.margin ∧
    (addjustCalculatedWidth c1ExData).calcd.innerWidth =
      max ((addjustCalculatedWidth c1ExData).calcd.width - boxLR c1ExData.padding) 0 ∧
    0 ≤ (addjustCalculatedWidth c1ExData).calcd.innerWidth ∧
    0 ≤ (addjustCalculatedWidth c1ExData).calcd.outerWidth := by
  have hpn : boxNN c1ExData.padding := by norm_num [boxNN, c1ExData]
  have hmn : boxNN c1ExData.margin := by norm_num [boxNN, c1ExData]
  have hw : 0 ≤ (addjustCalculatedWidth c1ExData).calcd.width := by
    norm_num [addjustCalculatedWidth, c1ExData]
  have h := C1_box_metric_invariants c1ExData hpn hmn
  exact ⟨hpn, hmn, hw, h.1, (h.2.1 hw).1, (h.2.1 hw).2.1, (h.2.1 hw).2.2⟩

/-! ## C5 — wrapped line widths -/

def sumCW (f : ℚ) (l : List Char) : ℚ :=
  (l.map fun c => measureText f [c]).sum

theorem measureText_eq_sumCW (f : ℚ) (l : List Char) :
    measureText f l = sumCW f l := by
  rw [measureText_eq]
  induction l with
  | nil => simp [sumCW]
  | cons c cs ih =>
    rw [utf8Len_cons, sumCW, List.map_cons, List.sum_cons, ← sumCW, ← ih]
    rw [measureText_eq (s := [c])]
    simp [utf8Len]
    ring

theorem takeChunkGo_width (f avail : ℚ) :
    ∀ (cs : List Char) (a : ℚ),
      (takeChunkGo f avail a cs).1 ≠ [] →
        a + sumCW f (takeChunkGo f avail a cs).1 ≤ avail := by
  intro cs
  induction cs with
  | nil => intro a h; simp [takeChunkGo] at h
  | cons c cs ih =>
    intro a h
    rw [takeChunkGo] at h ⊢
    by_cases hc : a + measureText f [c] > avail
    · simp [hc] at h
    · simp only [hc, if_false, reduceIte] at h ⊢
      rcases hb : (takeChunkGo f avail (a + measureText f [c]) cs).1 with _ | ⟨b, bs⟩
      · simp [sumCW, hb]
        linarith [not_lt.mp hc]
      · have := ih (a + measureText f [c]) (by rw [hb]; simp)
        rw [hb] at this
        simp only [sumCW, List.map_cons, List.sum_cons] at this ⊢
        linarith

theorem takeChunkGo_rest_le (f avail : ℚ) :
    ∀ (cs : List Char) (a : ℚ),
      (takeChunkGo f avail a cs).2.length ≤ cs.length := by
  intro cs
  induction cs with
  | nil => intro a; simp [takeChunkGo]
  | cons c cs ih =>
    intro a
    rw [takeChunkGo]
    by_cases hc : a + measureText f [c] > avail
    · simp [hc]
    · simp only [hc, if_false, reduceIte]
      exact Nat.le_trans (ih (a + measureText f [c])) (Nat.le_succ _)

theorem takeChunk_good (f avail : ℚ) (c : Char) (cs : List Char) :
    measureText f (takeChunk f avail (c :: cs)).1 ≤ avail ∨
      (takeChunk f avail (c :: cs)).1.length = 1 := by
  rw [takeChunk]
  rcases hb : (takeChunkGo f avail (measureText f [c]) cs).1 with _ | ⟨b, bs⟩
  · right; simp
  · left
    have := takeChunkGo_width f avail cs (measureText f [c]) (by rw [hb]; simp)
    rw [hb] at this
    rw [measureText_eq_sumCW]
    simp only [sumCW, List.map_cons, List.sum_cons] at this ⊢
    linarith

theorem charBreakAux_good (f avail : ℚ) :
    ∀ (fuel : ℕ) (s : List Char), ∀ l ∈ charBreakAux f avail fuel s,
      measureText f l ≤ avail ∨ l.length = 1 := by
  intro fuel
  induction fuel with
  | zero =>
    intro s l hl
    cases s <;> simp [charBreakAux] at hl
  | succ n ih =>
    intro s l hl
    cases s with
    | nil => simp [charBreakAux] at hl
    | cons c cs =>
      rw [charBreakAux] at hl
      rcases List.mem_cons.mp hl with rfl | hl'
      · exact takeChunk_good f avail c cs
      · exact ih _ l hl'

theorem charBreak_good (f avail : ℚ) (s : List Char) :
    ∀ l ∈ charBreak f avail s, measureText f l ≤ avail ∨ l.length = 1 :=
  charBreakAux_good f avail s.length s

theorem joinSpace_append_single : ∀ (l : List (List Char)) (w : List Char),
    l ≠ [] → joinSpace (l ++ [w]) = joinSpace l ++ ' ' :: w := by
  intro l
  induction l with
  | nil => intro w h; exact absurd rfl h
  | cons a as ih =>
    intro w _
    cases as with
    | nil => simp [joinSpace]
    | cons b bs =>
      have h1 : joinSpace ((a :: b :: bs) ++ [w]) =
          a ++ ' ' :: joinSpace ((b :: bs) ++ [w]) := rfl
      have h2 : joinSpace (a :: b :: bs) = a ++ ' ' :: joinSpace (b :: bs) := rfl
      rw [h1, ih w (by simp), h2]
      simp

/-- A produced line is within the claimed bound or a single character. -/
def goodL (f avail sp : ℚ) (l : List Char) : Prop :=
  measureText f l ≤ avail + sp ∨ l.length = 1

theorem spaceWidth_nonneg (f : ℚ) (hf : 0 ≤ f) : 0 ≤ measureText f [' '] := by
  rw [measureText_eq]
  have h1 : utf8Len [' '] = 1 := by
    simp [utf8Len, show ' '.utf8Size = 1 from by decide]
  rw [h1]
  positivity

theorem measureText_glue (f : ℚ) (a b : List Char) :
    measureText f (a ++ ' ' :: b) =
      measureText f a + measureText f [' '] + measureText f b := by
  rw [measureText_eq, measureText_eq, measureText_eq, measureText_eq,
    utf8Len_append, utf8Len_cons]
  have h1 : utf8Len [' '] = (' '.utf8Size : ℚ) := by simp [utf8Len]
  rw [h1]
  ring

/-- The line-accumulator invariant of the word loop. -/
def lineInv (f avail sp : ℚ) (line : List (List Char)) (lw : ℚ) : Prop :=
  (line = [] ∧ lw = 0) ∨
    (line ≠ [] ∧ measureText f (joinSpace line) ≤ lw ∧
      lw ≤ avail + sp ∧ lw ≤ measureText f (joinSpace line) + sp)

theorem flushed_good (f avail sp : ℚ) (line : List (List Char)) (lw : ℚ)
    (acc : List (List Char)) (hinv : lineInv f avail sp line lw)
    (hacc : ∀ l ∈ acc, goodL f avail sp l) :
    ∀ l ∈ (if line = [] then acc else acc ++ [joinSpace line]),
      goodL f avail sp l := by
  intro l hl
  by_cases hline : line = []
  · rw [if_pos hline] at hl
    exact hacc l hl
  · rw [if_neg hline] at hl
    rcases List.mem_append.mp hl with ha | hb
    · exact hacc l ha
    · rcases hinv with ⟨h1, _⟩ | ⟨_, hJ, hlw, _⟩
      · exact absurd h1 hline
      · rw [List.mem_singleton.mp hb]
        left
        linarith

theorem processWords_good (f avail : ℚ) (hf : 0 ≤ f) :
    ∀ (ws line : List (List Char)) (lw : ℚ) (acc : List (List Char)),
      lineInv f avail (measureText f [' ']) line lw →
      (∀ l ∈ acc, goodL f avail (measureText f [' ']) l) →
      ∀ l ∈ processWords f avail (measureText f [' ']) ws line lw acc,
        goodL f avail (measureText f [' ']) l := by
  have hsp := spaceWidth_nonneg f hf
  intro ws
  induction ws with
  | nil =>
    intro line lw acc hinv hacc l hl
    rw [processWords] at hl
    exact flushed_good f avail _ line lw acc hinv hacc l hl
  | cons w ws ih =>
    intro line lw acc hinv hacc l hl
    rw [processWords] at hl
    by_cases h1 : measureText f w > avail
    · rw [if_pos h1] at hl
      refine ih [] 0 _ (Or.inl ⟨rfl, rfl⟩) ?_ l hl
      intro l' hl'
      rcases List.mem_append.mp hl' with ha | hb
      · exact flushed_good f avail _ line lw acc hinv hacc l' ha
      · rcases charBreak_good f avail w l' hb with h | h
        · left; linarith
        · right; exact h
    · rw [if_neg h1] at hl
      by_cases h2 : lw + measureText f w > avail
      · rw [if_pos h2] at hl
        refine ih [w] (measureText f w) _ ?_
          (flushed_good f avail _ line lw acc hinv hacc) l hl
        right
        refine ⟨by simp, ?_, ?_, ?_⟩
        · rw [show joinSpace [w] = w from rfl]
        · linarith [not_lt.mp h1]
        · rw [show joinSpace [w] = w from rfl]
          linarith
      · rw [if_neg h2] at hl
        refine ih (line ++ [w]) (lw + measureText f w + measureText f [' '])
          acc ?_ hacc l hl
        right
        have hlcons : line ++ [w] ≠ [] := by simp
        rcases hinv with ⟨hle, hlw0⟩ | ⟨hlne, hJ, hlwb, hlwJ⟩
        · subst hle hlw0
          refine ⟨hlcons, ?_, ?_, ?_⟩
          · rw [show joinSpace ([] ++ [w]) = w from rfl]
            linarith
          · linarith [not_lt.mp h2]
          · rw [show joinSpace ([] ++ [w]) = w from rfl]
            linarith
        · have hJa : measureText f (joinSpace (line ++ [w])) =
              measureText f (joinSpace line) + measureText f [' '] +
                measureText f w := by
            rw [joinSpace_append_single line w hlne, measureText_glue]
          refine ⟨hlcons, ?_, ?_, ?_⟩
          · rw [hJa]; linarith
          · linarith [not_lt.mp h2]
          · rw [hJa]; linarith

theorem splitLines_good (f avail : ℚ) (hf : 0 ≤ f) (text : List Char) :
    ∀ l ∈ splitLines f avail text,
      measureText f l ≤ avail + measureText f [' '] ∨ l.length = 1 := by
  rw [splitLines]
  have hfold :
      ∀ (parts : List (List Char)) (acc : List (List Char)),
        (∀ l ∈ acc, goodL f avail (measureText f [' ']) l) →
        ∀ l ∈ parts.foldl
          (fun acc tl =>
            let t := trimChars tl
            if t = [] then acc
            else processWords f avail (measureText f [' ']) (fieldsChars t) [] 0 acc)
          acc, goodL f avail (measureText f [' ']) l := by
    intro parts
    induction parts with
    | nil => intro acc hacc l hl; exact hacc l hl
    | cons p ps ih =>
      intro acc hacc l hl
      rw [List.foldl_cons] at hl
      refine ih _ ?_ l hl
      by_cases hp : trimChars p = []
      · simp only [hp, if_pos]
        simpa using hacc
      · simp only [hp, if_neg, reduceIte]
        exact processWords_good f avail hf (fieldsChars (trimChars p)) [] 0 acc
          (Or.inl ⟨rfl, rfl⟩) hacc
  exact hfold (splitOnChar '\n' text) [] (by simp)

theorem wrapText_valueLines_subset (d : WData) (ls : List (List Char))
    (h : (wrapText d).valueLines = some ls) :
    ∀ l ∈ ls, l ∈ splitLines d.calcd.fontSize d.calcd.innerWidth d.value := by
  unfold wrapText at h
  by_cases hv : d.value ≠ []
  · simp only [hv, if_pos, reduceIte] at h
    split at h
    · simp only [recalculateFromInnerHeight, Option.some.injEq] at h
      subst h
      split
      · exact fun l hl => List.mem_of_mem_take hl
      · exact fun l hl => hl
    · simp only [Option.some.injEq] at h
      subst h
      split
      · exact fun l hl => List.mem_of_mem_take hl
      · exact fun l hl => hl
  · simp only [hv, reduceIte] at h
    split at h <;> simp only [recalculateFromInnerHeight, Option.some.injEq] at h <;>
      rw [← h] <;> intro l hl <;> split at hl <;> simp at hl

/-- Concrete run of `splitLines` at character width 1 (`fontSize = 20/9`)
and available width 5 on `"aaa aaa aa"`. -/
theorem c5_eval :
    splitLines (20 / 9) 5 "aaa aaa aa".data = ["aaa".data, "aaa aa".data] := by
  simp +decide [splitLines, splitOnChar, trimChars, isSpaceChar, fieldsChars,
    processWords, measureText, utf8Len, joinSpace,
    show 'a'.utf8Size = 1 from by decide, show ' '.utf8Size = 1 from by decide]
  norm_num

/-- C5 counterexample: after a line break the running `lineWidth` omits the
trailing space width, so the next fit check is off by one space: at
character width 1 and available width 5, `"aaa aaa aa"` wraps to
`["aaa", "aaa aa"]`, and `"aaa aa"` measures 6 > 5 yet has 6 characters. -/
theorem C5_counterexample :
    ¬ (∀ l ∈ splitLines (20 / 9) 5 "aaa aaa aa".data,
        measureText (20 / 9) l ≤ 5 ∨ l.length = 1) := by
  intro hall
  have hmem : ("aaa aa".data : List Char) ∈ splitLines (20 / 9) 5 "aaa aaa aa".data := by
    rw [c5_eval]
    simp
  rcases hall _ hmem with h | h
  · have hm : measureText (20 / 9) "aaa aa".data = 6 := by
      norm_num [measureText, utf8Len, show 'a'.utf8Size = 1 from by decide,
        show ' '.utf8Size = 1 from by decide]
      decide
    rw [hm] at h
    norm_num at h
  · exact absurd h (by decide)

/-- C5 (amended): every produced line measures at most the available width
**plus one space width** (the accumulator drops the pending space width
after a line break, letting a line overshoot by up to one space), or is a
single character from the forced break; the wrap functions are total, so
wrapping terminates on every input. -/
theorem C5_wrapped_lines_bounded :
    (∀ (f avail : ℚ), 0 ≤ f → ∀ (text : List Char),
      ∀ l ∈ splitLines f avail text,
        measureText f l ≤ avail + measureText f [' '] ∨ l.length = 1) ∧
    (∀ (d : WData) (ls : List (List Char)) (l : List Char),
      0 ≤ d.calcd.fontSize → (wrapText d).valueLines = some ls → l ∈ ls →
        measureText d.calcd.fontSize l ≤
          d.calcd.innerWidth + measureText d.calcd.fontSize [' '] ∨
        l.length = 1) :=
  ⟨fun f avail hf text => splitLines_good f avail hf text,
   fun d ls l hf h hl =>
     splitLines_good _ _ hf d.value l (wrapText_valueLines_subset d ls h l hl)⟩

/-- Witness for C5 (amended) on the counterexample input. -/
theorem C5_witness :
    (0 : ℚ) ≤ 20 / 9 ∧
    "aaa aa".data ∈ splitLines (20 / 9) 5 "aaa aaa aa".data ∧
    (measureText (20 / 9) "aaa aa".data ≤ 5 + measureText (20 / 9) [' '] ∨
      ("aaa aa".data).length = 1) := by
  have hf : (0 : ℚ) ≤ 20 / 9 := by norm_num
  have hmem : ("aaa aa".data : List Char) ∈ splitLines (20 / 9) 5 "aaa aaa aa".data := by
    rw [c5_eval]
    simp
  exact ⟨hf, hmem,
    C5_wrapped_lines_bounded.1 (20 / 9) 5 hf "aaa aaa aa".data "aaa aa".data hmem⟩

/-! ## C2 — row width distribution -/

theorem attachMap {α β : Type} (l : List α) (F : α → β) :
    (l.attach.map fun c => F c.1) = l.map F := by
  rw [show (fun c : {x // x ∈ l} => F c.1) = F ∘ Subtype.val from rfl, ← List.map_map,
    List.attach_map_subtype_val]

theorem adjustColumns_data (t : GoWidget) : (adjustColumns t).data = t.data := by
  rw [adjustColumns.eq_def]
  split
  split
  · rfl
  · split <;> (dsimp only; split <;> rfl)

theorem initWidgetsWidth_root_data (w : GoWidget) (pw : ℚ) :
    (initWidgetsWidth w pw).data = initWidgetsWidthData w.data pw := by
  cases w with
  | node d cs =>
    rw [initWidgetsWidth]
    by_cases hcs : cs.isEmpty = true
    · simp only [if_pos hcs, GoWidget.data_node]
    · simp only [if_neg hcs]
      by_cases htab : d.wtype = "table"
      · simp only [if_pos htab, adjustColumns_data, GoWidget.data_node]
      · simp only [if_neg htab, GoWidget.data_node]

theorem initWidgetsWidth_outer_auto (w : GoWidget) (pw : ℚ)
    (h : w.data.width = 0) :
    (initWidgetsWidth w pw).data.calcd.outerWidth = pw := by
  rw [initWidgetsWidth_root_data, initWidgetsWidthData, if_pos h]
  rcases hm : w.data.margin with _ | mb <;>
    rcases hp : w.data.padding with _ | pb <;>
    simp only [recalculateFromOuterWidth, hm, hp]

theorem initWidgetsWidth_outer_capped (w : GoWidget) (pw : ℚ)
    (h0 : ¬ w.data.width = 0) (h : w.data.calcd.outerWidth > pw) :
    (initWidgetsWidth w pw).data.calcd.outerWidth = pw := by
  rw [initWidgetsWidth_root_data, initWidgetsWidthData, if_neg h0, if_pos h]
  rcases hm : w.data.margin with _ | mb <;>
    rcases hp : w.data.padding with _ | pb <;>
    simp only [recalculateFromOuterWidth, hm, hp]

theorem initWidgetsWidth_outer_kept (w : GoWidget) (pw : ℚ)
    (h0 : ¬ w.data.width = 0) (h : ¬ w.data.calcd.outerWidth > pw) :
    (initWidgetsWidth w pw).data.calcd.outerWidth =
      (if w.data.calcd.width = 0 then w.data.width else w.data.calcd.width)
        + boxLR w.data.margin := by
  rw [initWidgetsWidth_root_data, initWidgetsWidthData, if_neg h0, if_neg h]
  by_cases hcw : w.data.calcd.width = 0 <;>
    rcases hm : w.data.margin with _ | mb <;>
      simp only [addjustCalculatedWidth, hm, hcw, if_true, if_false, reduceIte, boxLR] <;>
      ring

/-- The `sumWidth` gap term of the row branch of Go `initWidgetsWidth`:
`gap * (len(children) - 1)`. -/
def rowGapT (d : WData) (cs : List GoWidget) : ℚ := d.gap * ((cs.length : ℚ) - 1)

/-- The `sumWidth` value tested by the row branch of Go `initWidgetsWidth`:
the sum of ALL children's current outer widths, plus the total gap when it
is positive. -/
def rowSumW (d : WData) (cs : List GoWidget) : ℚ :=
  if rowGapT d cs > 0 then
    (cs.map fun c => c.data.calcd.outerWidth).sum + rowGapT d cs
  else (cs.map fun c => c.data.calcd.outerWidth).sum

/-- Sum of the declared-width children's outer widths (Go `fixedItems`). -/
def rowFixedSum (cs : List GoWidget) : ℚ :=
  ((cs.filter fun c => c.data.width ≠ 0).map fun c => c.data.calcd.outerWidth).sum

/-- Number of auto-width children (Go `autoItems`). -/
def rowAutoCount (cs : List GoWidget) : ℕ :=
  (cs.filter fun c => c.data.width = 0).length

/-- `initWidgetsWidth` unfolded to a plain `List.map` form. -/
theorem initWidgetsWidth_node (d : WData) (cs : List GoWidget) (pw : ℚ) :
    initWidgetsWidth (.node d cs) pw =
      (if cs.isEmpty then GoWidget.node (initWidgetsWidthData d pw) cs
       else
         let cs1 :=
           if d.direction = "row" then
             if rowSumW d cs < (initWidgetsWidthData d pw).calcd.innerWidth then
               if rowAutoCount cs ≠ 0 then
                 cs.map fun c => if c.data.width = 0 then
                   initWidgetsWidth c
                     (((initWidgetsWidthData d pw).calcd.innerWidth - rowFixedSum cs
                        - rowGapT d cs) / (rowAutoCount cs : ℚ))
                 else c
               else cs
             else
               cs.map fun c => initWidgetsWidth c
                 (((initWidgetsWidthData d pw).calcd.innerWidth - rowGapT d cs)
                   / (cs.length : ℚ))
           else
             cs.map fun c => initWidgetsWidth c (initWidgetsWidthData d pw).calcd.innerWidth
         if d.wtype = "table" then adjustColumns (.node (initWidgetsWidthData d pw) cs1)
         else .node (initWidgetsWidthData d pw) cs1) := by
  rw [initWidgetsWidth]
  simp only [attachMap cs (fun c => if c.data.width = 0 then
      initWidgetsWidth c (((initWidgetsWidthData d pw).calcd.innerWidth
        - ((cs.filter fun x => x.data.width ≠ 0).map fun x => x.data.calcd.outerWidth).sum
        - d.gap * ((cs.length : ℚ) - 1)) / (((cs.filter fun x => x.data.width = 0).length : ℚ)))
      else c),
    attachMap cs (fun c => initWidgetsWidth c
      (((initWidgetsWidthData d pw).calcd.innerWidth - d.gap * ((cs.length : ℚ) - 1))
        / ((cs.length : ℚ)))),
    attachMap cs (fun c => initWidgetsWidth c (initWidgetsWidthData d pw).calcd.innerWidth),
    rowSumW, rowGapT, rowFixedSum, rowAutoCount]

/-- `initCalculatedInfo` unfolded to a plain `List.map` form. -/
theorem initCalculatedInfo_node (d : WData) (cs : List GoWidget) (parent : Option CalcInfo) :
    initCalculatedInfo (.node d cs) parent =
      .node (initCalcData d parent)
        (cs.map fun c => initCalculatedInfo c (some (initCalcData d parent).calcd)) := by
  rw [initCalculatedInfo]
  simp only [attachMap cs (fun c => initCalculatedInfo c (some (initCalcData d parent).calcd))]

/-- C2 (amended): for a row-direction, non-table container with children:
when `sumWidth` (all children's current outer widths, plus the gap total
when positive) is below the container's computed inner width and there is
at least one auto-width child, each auto-width child is laid out with the
equal share `(inner - fixedSum - gap) / autoCount` as its available width
and ends with exactly that outer width, while declared-width children are
left untouched; otherwise every child is re-laid-out with the equal share
`(inner - gap) / n` offered as its *available* width, which caps children
wider than the share at the share but lets a declared child at or below
the share keep its declared outer width — the code caps, it does not
re-distribute equally. -/
theorem C2_row_width_distribution (d : WData) (cs : List GoWidget) (pw iw : ℚ)
    (hrow : d.direction = "row") (hnt : ¬ d.wtype = "table") (hne : cs.isEmpty = false)
    (hiw : (initWidgetsWidth (.node d cs) pw).data.calcd.innerWidth = iw) :
    (rowSumW d cs < iw → rowAutoCount cs ≠ 0 →
      (initWidgetsWidth (.node d cs) pw).children
        = (cs.map fun c => if c.data.width = 0 then
            initWidgetsWidth c ((iw - rowFixedSum cs - rowGapT d cs) / (rowAutoCount cs : ℚ))
          else c) ∧
      (∀ c ∈ cs, c.data.width = 0 →
        (initWidgetsWidth c ((iw - rowFixedSum cs - rowGapT d cs)
            / (rowAutoCount cs : ℚ))).data.calcd.outerWidth
          = (iw - rowFixedSum cs - rowGapT d cs) / (rowAutoCount cs : ℚ))) ∧
    (¬ rowSumW d cs < iw →
      (initWidgetsWidth (.node d cs) pw).children
        = (cs.map fun c => initWidgetsWidth c ((iw - rowGapT d cs) / (cs.length : ℚ))) ∧
      (∀ c ∈ cs,
        (initWidgetsWidth c ((iw - rowGapT d cs) / (cs.length : ℚ))).data.calcd.outerWidth
          = if c.data.width = 0 ∨ (iw - rowGapT d cs) / (cs.length : ℚ) < c.data.calcd.outerWidth
            then (iw - rowGapT d cs) / (cs.length : ℚ)
            else (if c.data.calcd.width = 0 then c.data.width else c.data.calcd.width)
              + boxLR c.data.margin)) := by
  have hroot : (initWidgetsWidth (GoWidget.node d cs) pw).data = initWidgetsWidthData d pw := by
    simpa using initWidgetsWidth_root_data (.node d cs) pw
  rw [hroot] at hiw
  subst hiw
  constructor
  · intro hlt hauto
    refine ⟨?_, ?_⟩
    · conv_lhs => rw [initWidgetsWidth_node]
      simp only [hne, Bool.false_eq_true, if_false, if_pos hrow, if_pos hlt,
        if_pos hauto, if_neg hnt, GoWidget.children_node]
    · intro c _ hc0
      exact initWidgetsWidth_outer_auto c _ hc0
  · intro hge
    refine ⟨?_, ?_⟩
    · conv_lhs => rw [initWidgetsWidth_node]
      simp only [hne, Bool.false_eq_true, if_false, if_pos hrow, if_neg hge,
        if_neg hnt, GoWidget.children_node]
    · intro c _
      by_cases hc0 : c.data.width = 0
      · rw [initWidgetsWidth_outer_auto c _ hc0, if_pos (Or.inl hc0)]
      · by_cases hcap : ((initWidgetsWidthData d pw).calcd.innerWidth - rowGapT d cs)
            / (cs.length : ℚ) < c.data.calcd.outerWidth
        · rw [initWidgetsWidth_outer_capped c _ hc0 hcap, if_pos (Or.inr hcap)]
        · rw [initWidgetsWidth_outer_kept c _ hc0 hcap, if_neg (not_or.mpr ⟨hc0, hcap⟩)]

/-- Counterexample input for C2: a row of inner width 300, gap 0, with two
declared-width children 50 and 280 (summed outer widths 330 ≥ 300). -/
def c2Input : GoWidget :=
  .node { direction := "row" }
    [.node { width := 50 } [], .node { width := 280 } []]

/-- The C2 counterexample output: style-initialise and width-lay-out
`c2Input` with available width 300. -/
def c2Out : GoWidget := initWidgetsWidth (initCalculatedInfo c2Input none) 300

/-- C2 counterexample: the claim says that when the children's widths
already fill the row, every child — including declared-width ones — is
re-distributed equally as `(inner - gap) / n = 150`; in fact the 50-wide
child keeps its declared width (the outer widths are 50 and 150, not 150
and 150). -/
theorem C2_counterexample :
    c2Out.data.calcd.innerWidth = 300 ∧
    ¬ rowSumW (initCalculatedInfo c2Input none).data
        (initCalculatedInfo c2Input none).children < 300 ∧
    (c2Out.children.map fun c => c.data.calcd.outerWidth) = [50, 150] ∧
    ¬ (∀ c ∈ c2Out.children, c.data.calcd.outerWidth = ((300 : ℚ) - 0) / 2) := by
  have hmap : (c2Out.children.map fun c => c.data.calcd.outerWidth) = [50, 150] := by
    simp [c2Out, c2Input, initCalculatedInfo_node, initCalcData, boldSuffix,
      addjustCalculatedWidth, addjustCalculatedHeight, initWidgetsWidth_node,
      initWidgetsWidthData, recalculateFromOuterWidth, rowSumW, rowGapT,
      rowFixedSum, rowAutoCount]
    rw [if_neg (show ¬ ("" : String) = "table" by decide)]
    simp
    norm_num
  refine ⟨?_, ?_, hmap, ?_⟩
  · simp only [c2Out, c2Input]
    rw [initWidgetsWidth_root_data]
    simp [initCalculatedInfo_node, initCalcData, boldSuffix, addjustCalculatedWidth,
      addjustCalculatedHeight, initWidgetsWidthData, recalculateFromOuterWidth]
  · simp [c2Input, initCalculatedInfo_node, initCalcData, boldSuffix,
      addjustCalculatedWidth, addjustCalculatedHeight, rowSumW, rowGapT,
      recalculateFromOuterWidth]
    norm_num
  · intro hall
    have hx : ∀ x ∈ (c2Out.children.map fun c => c.data.calcd.outerWidth),
        x = ((300 : ℚ) - 0) / 2 := by
      intro x hx
      rcases List.mem_map.mp hx with ⟨c, hc, rfl⟩
      exact hall c hc
    rw [hmap] at hx
    have h50 := hx 50 (by simp)
    norm_num at h50

/-- Witness input for C2: the spec's S3 scenario — a row with a width=100
child and an attribute-less child, laid out into available width 300. -/
def c2s3w : GoWidget :=
  initCalculatedInfo
    (.node { direction := "row" } [.node { width := 100 } [], .node {} []]) none

/-- Witness for C2 at the S3 scenario: the hypotheses hold, the underfull
branch applies, and the outer widths come out as 100 and 200. -/
theorem C2_witness :
    c2s3w.data.direction = "row" ∧ ¬ c2s3w.data.wtype = "table" ∧
    c2s3w.children.isEmpty = false ∧
    (initWidgetsWidth (.node c2s3w.data c2s3w.children) 300).data.calcd.innerWidth = 300 ∧
    rowSumW c2s3w.data c2s3w.children < 300 ∧
    rowAutoCount c2s3w.children ≠ 0 ∧
    (initWidgetsWidth (.node c2s3w.data c2s3w.children) 300).children
      = (c2s3w.children.map fun c => if c.data.width = 0 then
          initWidgetsWidth c ((300 - rowFixedSum c2s3w.children
            - rowGapT c2s3w.data c2s3w.children) / (rowAutoCount c2s3w.children : ℚ))
        else c) ∧
    ((initWidgetsWidth (.node c2s3w.data c2s3w.children) 300).children.map
        fun c => c.data.calcd.outerWidth) = [100, 200] := by
  have hrow : c2s3w.data.direction = "row" := by
    simp [c2s3w, initCalculatedInfo_node, initCalcData, boldSuffix,
      addjustCalculatedWidth]
  have hnt : ¬ c2s3w.data.wtype = "table" := by
    simp [c2s3w, initCalculatedInfo_node, initCalcData, boldSuffix,
      addjustCalculatedWidth]
    decide
  have hne : c2s3w.children.isEmpty = false := by
    simp [c2s3w, initCalculatedInfo_node]
  have hiw : (initWidgetsWidth (.node c2s3w.data c2s3w.children) 300).data.calcd.innerWidth
      = 300 := by
    rw [initWidgetsWidth_root_data]
    simp [c2s3w, initCalculatedInfo_node, initCalcData, boldSuffix,
      addjustCalculatedWidth, initWidgetsWidthData, recalculateFromOuterWidth]
  have hlt : rowSumW c2s3w.data c2s3w.children < 300 := by
    simp [c2s3w, initCalculatedInfo_node, initCalcData, boldSuffix,
      addjustCalculatedWidth, addjustCalculatedHeight, rowSumW, rowGapT]
    norm_num
  have hauto : rowAutoCount c2s3w.children ≠ 0 := by
    simp [c2s3w, initCalculatedInfo_node, initCalcData, boldSuffix,
      addjustCalculatedWidth, addjustCalculatedHeight, rowAutoCount]
  have h := C2_row_width_distribution c2s3w.data c2s3w.children 300 300 hrow hnt hne hiw
  have houters : ((initWidgetsWidth (.node c2s3w.data c2s3w.children) 300).children.map
      fun c => c.data.calcd.outerWidth) = [100, 200] := by
    simp [c2s3w, initCalculatedInfo_node, initCalcData, boldSuffix,
      addjustCalculatedWidth, addjustCalculatedHeight, initWidgetsWidth_node,
      initWidgetsWidthData, recalculateFromOuterWidth, rowSumW, rowGapT,
      rowFixedSum, rowAutoCount]
    rw [if_neg (show ¬ ("" : String) = "table" by decide)]
    simp
    norm_num
  exact ⟨hrow, hnt, hne, hiw, hlt, hauto, (h.1 hlt hauto).1, houters⟩

/-! ## C6 — page-number interpolation -/

theorem groupPagesAux_eq (acc ps : List PNPage) :
    groupPagesAux acc ps
      = (acc ++ ps.takeWhile fun q => !q.reset)
          :: specGroups (ps.dropWhile fun q => !q.reset) := by
  induction ps generalizing acc with
  | nil => simp [groupPagesAux, specGroups]
  | cons p ps ih =>
    by_cases hr : p.reset
    · have ht : List.takeWhile (fun q : PNPage => !q.reset) (p :: ps) = [] := by
        simp [hr]
      have hd : List.dropWhile (fun q : PNPage => !q.reset) (p :: ps) = p :: ps := by
        simp [hr]
      rw [groupPagesAux, if_pos hr, ih, ht, hd]
      conv_rhs => rw [specGroups.eq_def]
      simp
    · have ht : List.takeWhile (fun q : PNPage => !q.reset) (p :: ps)
          = p :: List.takeWhile (fun q : PNPage => !q.reset) ps := by
        simp [hr]
      have hd : List.dropWhile (fun q : PNPage => !q.reset) (p :: ps)
          = List.dropWhile (fun q : PNPage => !q.reset) ps := by
        simp [hr]
      rw [groupPagesAux, if_neg hr, ih, ht, hd]
      simp

theorem groupPages_eq_specGroups (pages : List PNPage) :
    groupPages pages = specGroups pages := by
  cases pages with
  | nil => simp [groupPages, specGroups.eq_def]
  | cons p ps =>
    rw [groupPages, groupPagesAux_eq]
    conv_rhs => rw [specGroups.eq_def]
    simp

/-- C6 (amended): the output pages are grouped exactly as the claim says —
`groupPages` agrees with the specification-side `specGroups`, so a group is
a page together with the following run of non-reset pages, and the i-th
page of a group of N is interpolated with (i, N) — but the header/footer
substitution stops at the FIRST widget with non-nil `valueLines` on each
path: such a widget has its lines substituted while its children are left
completely untouched. -/
theorem C6_page_number_interpolation (pages : List PNPage) (pg pgs : List Char)
    (d : WData) (cs : List GoWidget) (ls : List (List Char))
    (h : d.valueLines = some ls) :
    setPageNumbers pages
      = ((specGroups pages).map fun g =>
          g.mapIdx fun i p => interpPage (i + 1) g.length p).flatten ∧
    (interpolatePageNumbers pg pgs (.node d cs)).data.valueLines
      = some (ls.map (interpLine pg pgs)) ∧
    (interpolatePageNumbers pg pgs (.node d cs)).children = cs := by
  refine ⟨?_, ?_, ?_⟩
  · rw [setPageNumbers, groupPages_eq_specGroups]
  · rw [interpolatePageNumbers]
    simp [h]
  · rw [interpolatePageNumbers]
    simp [h]

/-- Counterexample input for C6: a single page whose header has `\x7bpage\x7d`
both in its own lines and in a child widget's lines. -/
def c6Header : GoWidget :=
  .node { valueLines := some [pagePat] }
    [.node { valueLines := some [pagePat] } []]

def c6Pages : List PNPage := [⟨false, some c6Header, none⟩]

/-- C6 counterexample: the claim says every widget of the header subtree
has `\x7bpage\x7d` replaced; in fact the root widget's lines are substituted
(`['1']`), and its child widget — also carrying `\x7bpage\x7d` — is left
untouched because `interpolatePageNumbers` returns without visiting the
children of a widget with non-nil `valueLines`. -/
theorem C6_counterexample :
    setPageNumbers c6Pages
      = [⟨false,
          some (.node { valueLines := some [['1']] }
            [.node { valueLines := some [pagePat] } []]),
          none⟩] ∧
    pagePat ≠ ['1'] := by
  constructor
  · have h1d : (Nat.repr 1).data = ['1'] := by decide
    simp +decide [setPageNumbers, groupPages, groupPagesAux, interpPage, c6Pages,
      c6Header, interpolatePageNumbers, interpLine, replaceAll, replaceAllAux,
      pagePat, pagesPat, natChars, h1d]
  · decide

/-- Witness input for C6: a two-page document whose second page resets the
numbering, with a leaf header carrying `\x7bpage\x7d`. -/
def c6wPages : List PNPage :=
  [⟨false, some (.node { valueLines := some [pagePat] } []), none⟩,
   ⟨true, none, none⟩]

/-- Witness for C6 (amended) at `c6wPages` and a concrete leaf widget:
grouping agrees with the spec-side partition and the substitution really
replaces `\x7bpage\x7d` in the lines of the first `valueLines` widget. -/
theorem C6_witness :
    ({ valueLines := some [pagePat] } : WData).valueLines = some [pagePat] ∧
    setPageNumbers c6wPages
      = ((specGroups c6wPages).map fun g =>
          g.mapIdx fun i p => interpPage (i + 1) g.length p).flatten ∧
    (interpolatePageNumbers ['1'] ['2']
        (.node { valueLines := some [pagePat] } [])).data.valueLines
      = some ([pagePat].map (interpLine ['1'] ['2'])) ∧
    (interpolatePageNumbers ['1'] ['2']
        (.node { valueLines := some [pagePat] } [])).children = [] ∧
    interpLine ['1'] ['2'] pagePat = ['1'] := by
  have h := C6_page_number_interpolation c6wPages ['1'] ['2']
    { valueLines := some [pagePat] } [] [pagePat] rfl
  refine ⟨rfl, h.1, h.2.1, h.2.2, ?_⟩
  simp +decide [interpLine, replaceAll, replaceAllAux, pagePat, pagesPat]

/-! ## C7 — alternate row coloring in table clones -/

theorem clearLastCarryNext_cons (c : GoWidget) (cs : List GoWidget) :
    ∃ d ds, clearLastCarryNext (c :: cs) = d :: ds := by
  cases cs with
  | nil => exact ⟨_, _, rfl⟩
  | cons c2 cs => exact ⟨_, _, rfl⟩

/-- The carry chain of the claim, exempting the final clone: each clone
before the last has `carryLast` equal to the incoming carry and
`carryNext = (carryLast ?? 0) + columnSum(children)`, and hands
`carryNext` to the rest. -/
def carrySeq (parse : List Char → Option ℚ) (col : ℕ) : Option ℚ → List GoWidget → Prop
  | _, [] => True
  | _, [_] => True
  | cl, c :: c2 :: cs =>
    c.data.carryLast = cl ∧
    c.data.carryNext = some (cl.getD 0 + getColumnSum parse c.children col) ∧
    carrySeq parse col (some (cl.getD 0 + getColumnSum parse c.children col)) (c2 :: cs)

theorem splitTableLoop_ne_nil (tmpl : WData) (hdr : Option GoWidget)
    (parse : List Char → Option ℚ) (innerH : ℚ) (fuel : ℕ) (base : WData)
    (stall : Bool) (pageNo : ℕ) (curY : ℚ) (rows : List GoWidget) (cl : Option ℚ)
    (cs : List GoWidget)
    (h : splitTableLoop tmpl hdr parse innerH fuel base stall pageNo curY rows cl = some cs) :
    cs ≠ [] := by
  cases fuel with
  | zero => simp [splitTableLoop] at h
  | succ fuel =>
    rw [splitTableLoop] at h
    by_cases h0 : fitCount innerH curY rows = 0
    · rw [if_pos h0] at h
      obtain rfl := Option.some.inj h
      simp
    · rw [if_neg h0] at h
      by_cases hre : (rows.drop (fitCount innerH curY rows)).isEmpty
      · rw [if_pos hre] at h
        obtain rfl := Option.some.inj h
        simp
      · rw [if_neg hre] at h
        split at h <;> (try simp only [] at h) <;> (try split at h) <;>
          first
          | (obtain rfl := Option.some.inj h
             simp)
          | simp at h

theorem carrySeq_clearLast (parse : List Char → Option ℚ) (col : ℕ) :
    ∀ (cl : Option ℚ) (cs : List GoWidget),
      carrySeq parse col cl cs → carrySeq parse col cl (clearLastCarryNext cs) := by
  intro cl cs
  induction cs generalizing cl with
  | nil => intro h; exact h
  | cons c cs ih =>
    cases cs with
    | nil => intro h; trivial
    | cons c2 cs2 =>
      intro h
      obtain ⟨h1, h2, h3⟩ := h
      rw [show clearLastCarryNext (c :: c2 :: cs2) = c :: clearLastCarryNext (c2 :: cs2)
        from rfl]
      obtain ⟨d, ds, hd⟩ := clearLastCarryNext_cons c2 cs2
      rw [hd]
      exact ⟨h1, h2, by rw [← hd]; exact ih _ h3⟩

theorem clearLast_getLast_carryNext :
    ∀ (cs : List GoWidget) (t : GoWidget),
      (clearLastCarryNext cs).getLast? = some t → t.data.carryNext = none := by
  intro cs
  induction cs with
  | nil => intro t h; simp [clearLastCarryNext] at h
  | cons c cs ih =>
    cases cs with
    | nil =>
      intro t h
      rw [show clearLastCarryNext [c]
          = [.node { c.data with carryNext := none } c.children] from rfl] at h
      simp only [List.getLast?_singleton] at h
      obtain rfl := Option.some.inj h
      rfl
    | cons c2 cs2 =>
      intro t h
      rw [show clearLastCarryNext (c :: c2 :: cs2)
          = c :: clearLastCarryNext (c2 :: cs2) from rfl] at h
      obtain ⟨d, ds, hd⟩ := clearLastCarryNext_cons c2 cs2
      rw [hd, List.getLast?_cons_cons, ← hd] at h
      exact ih t h

theorem splitTableLoop_carrySeq (tmpl : WData) (hdr : Option GoWidget)
    (parse : List Char → Option ℚ) (innerH : ℚ) (hcol : 0 ≤ tmpl.carryColumn) :
    ∀ (fuel : ℕ) (base : WData) (stall : Bool) (pageNo : ℕ) (curY : ℚ)
      (rows : List GoWidget) (cl : Option ℚ) (cs : List GoWidget),
      splitTableLoop tmpl hdr parse innerH fuel base stall pageNo curY rows cl = some cs →
      carrySeq parse tmpl.carryColumn.toNat cl cs := by
  intro fuel
  induction fuel with
  | zero => intro base stall pageNo curY rows cl cs h; simp [splitTableLoop] at h
  | succ fuel ih =>
    intro base stall pageNo curY rows cl cs h
    rw [splitTableLoop] at h
    by_cases h0 : fitCount innerH curY rows = 0
    · rw [if_pos h0] at h
      obtain rfl := Option.some.inj h
      trivial
    · rw [if_neg h0] at h
      by_cases hre : (rows.drop (fitCount innerH curY rows)).isEmpty
      · rw [if_pos hre] at h
        obtain rfl := Option.some.inj h
        trivial
      · rw [if_neg hre] at h
        rw [if_pos hcol] at h
        simp only [] at h
        split at h
        · simp at h
        · rename_i cs2 hrec
          obtain rfl := Option.some.inj h
          cases cs2 with
          | nil => exact absurd rfl (splitTableLoop_ne_nil _ _ _ _ _ _ _ _ _ _ _ _ hrec)
          | cons c2 cs3 =>
            refine ⟨rfl, rfl, ?_⟩
            exact ih _ _ _ _ _ _ _ hrec

theorem carrySeq_sum (parse : List Char → Option ℚ) (col : ℕ) :
    ∀ (ds : List GoWidget) (cl0 : Option ℚ) (t : GoWidget),
      carrySeq parse col cl0 (ds ++ [t]) →
      (match ds.getLast? with
       | none => t.data.carryLast = cl0
       | some d => t.data.carryLast = d.data.carryNext) →
      cl0.getD 0 + ((ds ++ [t]).map fun c => getColumnSum parse c.children col).sum
        = (t.data.carryLast).getD 0 + getColumnSum parse t.children col := by
  intro ds
  induction ds with
  | nil =>
    intro cl0 t hseq hlast
    simp only [List.getLast?_nil] at hlast
    rw [hlast]
    simp
  | cons d ds ih =>
    intro cl0 t hseq hlast
    obtain ⟨x, xs, hx⟩ : ∃ x xs, ds ++ [t] = x :: xs := by
      cases hds : ds ++ [t] with
      | nil => exact absurd hds (by simp)
      | cons x xs => exact ⟨x, xs, rfl⟩
    rw [List.cons_append, hx] at hseq
    obtain ⟨h1, h2, h3⟩ := hseq
    rw [← hx] at h3
    have hlast2 : (match ds.getLast? with
        | none => t.data.carryLast
            = some (cl0.getD 0 + getColumnSum parse d.children col)
        | some d2 => t.data.carryLast = d2.data.carryNext) := by
      cases ds with
      | nil =>
        simp only [List.getLast?_nil]
        simp only [List.getLast?_singleton] at hlast
        rw [hlast, h2]
      | cons e es =>
        simp only [List.getLast?_cons_cons] at hlast
        cases hes : (e :: es).getLast? with
        | none => simp at hes
        | some d2 =>
          rw [hes] at hlast
          simp only [hes]
          exact hlast
    have hrec := ih (some (cl0.getD 0 + getColumnSum parse d.children col)) t h3 hlast2
    simp only [Option.getD_some] at hrec
    simp only [List.cons_append, List.map_cons, List.sum_cons]
    rw [← hrec]
    ring

/-- C3 (amended): when a carry-column table is split, the clones form the
claimed carry chain — first `carryLast` unset, each clone's
`carryNext = (carryLast ?? 0) + columnSum`, handed to the next clone's
`carryLast` — for every clone EXCEPT the final one, whose `carryNext` is
cleared; a final stalled clone keeps the template's stale carry fields
instead of the previous clone's `carryNext` (see the counterexample), and
the claimed total-sum identity holds exactly when the final hand-off did
happen. -/
theorem C3_carry_chain (parse : List Char → Option ℚ) (w : GoWidget)
    (fuel : ℕ) (pageInnerH curY : ℚ) (cs : List GoWidget)
    (hcol : 0 ≤ w.data.carryColumn)
    (h : splitTable fuel parse w pageInnerH curY = some cs) :
    carrySeq parse w.data.carryColumn.toNat none cs ∧
    (∀ t, cs.getLast? = some t → t.data.carryNext = none) ∧
    (∀ (cl0 : Option ℚ) (ds : List GoWidget) (t : GoWidget),
      carrySeq parse w.data.carryColumn.toNat cl0 (ds ++ [t]) →
      (match ds.getLast? with
       | none => t.data.carryLast = cl0
       | some d => t.data.carryLast = d.data.carryNext) →
      cl0.getD 0 + ((ds ++ [t]).map fun c =>
          getColumnSum parse c.children w.data.carryColumn.toNat).sum
        = (t.data.carryLast).getD 0
            + getColumnSum parse t.children w.data.carryColumn.toNat) := by
  rw [splitTable] at h
  split at h
  · simp at h
  · rename_i cs0 hloop
    obtain rfl := Option.some.inj h
    refine ⟨?_, ?_, ?_⟩
    · exact carrySeq_clearLast _ _ _ _
        (splitTableLoop_carrySeq _ _ _ _ hcol _ _ _ _ _ _ _ _ hloop)
    · intro t ht
      exact clearLast_getLast_carryNext cs0 t ht
    · intro cl0 ds t hseq hlast
      exact carrySeq_sum parse _ ds cl0 t hseq hlast

/-- A cell whose single value line parses as 7 under `c3parse`. -/
def c3cell : GoWidget := .node { valueLines := some [['7']] } []

/-- The injected number parser for the C3 scenarios. -/
def c3parse : List Char → Option ℚ := fun l => if l = ['7'] then some 7 else none

def c3r0 : GoWidget := .node { calcd := { outerY := 0, outerHeight := 5 } } [c3cell]

def c3r1 : GoWidget := .node { calcd := { outerY := 5, outerHeight := 20 } } [c3cell]

def c3r2 : GoWidget := .node { calcd := { outerY := 25, outerHeight := 1 } } [c3cell]

/-- Counterexample table for C3: carry column 0, three rows, the second of
which fits no page of inner height 10. -/
def c3w : GoWidget := .node { wtype := "table", carryColumn := 0 } [c3r0, c3r1, c3r2]

def c3clone0 : GoWidget :=
  .node (recalculateFromInnerHeight
    { c3w.data with
      carryLast := none
      carryNext := some 7
      pageNumber := 0
      calcd := { c3w.data.calcd with innerHeight := 5 } })
    [c3r0]

def c3r1b : GoWidget :=
  .node (adjustCalculatedY { c3r1.data with calcd := { c3r1.data.calcd with outerY := 0 } })
    [c3cell]

def c3r2b : GoWidget :=
  .node (adjustCalculatedY { c3r2.data with calcd := { c3r2.data.calcd with outerY := 20 } })
    [c3cell]

/-- The stalled final clone: carry fields from the template, not from the
previous clone. -/
def c3clone1 : GoWidget :=
  .node { (subsequentCloneBase c3w.data 1) with carryNext := none } [c3r1b, c3r2b]

theorem c3_eval : splitTable 3 c3parse c3w 10 0 = some [c3clone0, c3clone1] := by
  have hfit1 : fitCount 10 0 [c3r0, c3r1, c3r2] = 1 := by
    simp [fitCount, c3r0, c3r1, c3r2]
    norm_num
  have hren : renumberRowsFrom 0 [c3r1, c3r2] = [c3r1b, c3r2b] := by
    simp [renumberRowsFrom, adjustCalculatedY, c3r1, c3r2, c3r1b, c3r2b]
  have hfit2 : fitCount 10 0 [c3r1b, c3r2b] = 0 := by
    simp [fitCount, c3r1b, c3r2b, adjustCalculatedY, c3r1, c3r2]
    norm_num
  rw [splitTable]
  simp only [c3w, GoWidget.data_node, GoWidget.children_node]
  norm_num
  rw [splitTableLoop]
  simp only [hfit1]
  norm_num
  rw [splitTableLoop]
  simp only [List.drop_succ_cons, List.drop_zero, List.take_succ_cons, List.take_zero,
    Option.toList_none, List.nil_append, hren]
  simp only [hfit2]
  simp [setAlternateColorL, clearLastCarryNext, c3clone0, c3clone1, c3r0, c3cell,
    getColumnSum, c3parse, subsequentCloneBase, recalculateFromInnerHeight,
    adjustCalculatedY, c3w]

/-- C3 counterexample: the stalled final clone's `carryLast` is the
template's unset value, not the previous clone's `carryNext = 7`, and the
claimed total-sum identity fails (21 ≠ 0 + 14). -/
theorem C3_counterexample :
    splitTable 3 c3parse c3w 10 0 = some [c3clone0, c3clone1] ∧
    c3clone0.data.carryNext = some 7 ∧
    c3clone1.data.carryLast = none ∧
    ¬ (∀ cs, splitTable 3 c3parse c3w 10 0 = some cs →
        ∀ i t t2, cs.get? i = some t → cs.get? (i + 1) = some t2 →
          t2.data.carryLast = t.data.carryNext) ∧
    (([c3clone0, c3clone1].map fun t => getColumnSum c3parse t.children 0).sum
      ≠ (c3clone1.data.carryLast).getD 0 + getColumnSum c3parse c3clone1.children 0) := by
  refine ⟨c3_eval, rfl, rfl, ?_, ?_⟩
  · intro hall
    have := hall _ c3_eval 0 c3clone0 c3clone1 rfl rfl
    rw [show c3clone1.data.carryLast = none from rfl,
      show c3clone0.data.carryNext = some 7 from rfl] at this
    simp at this
  · simp [getColumnSum, c3clone0, c3clone1, c3r0, c3r1b, c3r2b, c3cell, c3parse,
      subsequentCloneBase, recalculateFromInnerHeight, adjustCalculatedY, c3w]

/-- Witness rows for C3: both rows fit (one per page of inner height 10). -/
def c3s0 : GoWidget := .node { calcd := { outerY := 0, outerHeight := 5 } } [c3cell]

def c3s1 : GoWidget := .node { calcd := { outerY := 5, outerHeight := 6 } } [c3cell]

def c3sw : GoWidget := .node { wtype := "table", carryColumn := 0 } [c3s0, c3s1]

def c3s1b : GoWidget :=
  .node (adjustCalculatedY { c3s1.data with calcd := { c3s1.data.calcd with outerY := 0 } })
    [c3cell]

def c3cloneA : GoWidget :=
  .node (recalculateFromInnerHeight
    { c3sw.data with
      carryLast := none
      carryNext := some 7
      pageNumber := 0
      calcd := { c3sw.data.calcd with innerHeight := 5 } })
    [c3s0]

def c3preB : WData := subsequentCloneBase c3sw.data 1

def c3cloneB : GoWidget :=
  .node { (recalculateFromInnerHeight
    { c3preB with
      carryLast := some 7
      carryNext := some 14
      pageNumber := 1
      calcd := { c3preB.calcd with innerHeight := 6 } }) with carryNext := none }
    [c3s1b]

theorem c3s_eval : splitTable 3 c3parse c3sw 10 0 = some [c3cloneA, c3cloneB] := by
  have hfit1 : fitCount 10 0 [c3s0, c3s1] = 1 := by
    simp [fitCount, c3s0, c3s1]
    norm_num
  have hren : renumberRowsFrom 0 [c3s1] = [c3s1b] := by
    simp [renumberRowsFrom, adjustCalculatedY, c3s1, c3s1b]
  have hfit2 : fitCount 10 0 [c3s1b] = 1 := by
    simp [fitCount, c3s1b, adjustCalculatedY, c3s1]
    norm_num
  rw [splitTable]
  simp only [c3sw, GoWidget.data_node, GoWidget.children_node]
  norm_num
  rw [splitTableLoop]
  simp only [hfit1]
  norm_num
  rw [splitTableLoop]
  simp only [List.drop_succ_cons, List.drop_zero, List.take_succ_cons, List.take_zero,
    Option.toList_none, List.nil_append, hren]
  simp only [hfit2]
  simp [setAlternateColorL, clearLastCarryNext, c3cloneA, c3cloneB, c3preB, c3s0, c3s1b,
    c3cell, getColumnSum, c3parse, subsequentCloneBase, recalculateFromInnerHeight,
    adjustCalculatedY, c3sw, c3s1]

/-- Witness for C3 (amended) at the fully-fitting two-clone split of
`c3sw`: the chain holds, the final `carryNext` is cleared, and the total
7 + 7 equals the final clone's `carryLast (7) + its column sum (7)`. -/
theorem C3_witness :
    (0 ≤ c3sw.data.carryColumn) ∧
    carrySeq c3parse c3sw.data.carryColumn.toNat none [c3cloneA, c3cloneB] ∧
    (∀ t, ([c3cloneA, c3cloneB] : List GoWidget).getLast? = some t →
      t.data.carryNext = none) ∧
    c3cloneA.data.carryLast = none ∧
    c3cloneA.data.carryNext = some 7 ∧
    c3cloneB.data.carryLast = some 7 ∧
    ((none : Option ℚ).getD 0 + (([c3cloneA] ++ [c3cloneB]).map fun c =>
        getColumnSum c3parse c.children c3sw.data.carryColumn.toNat).sum
      = (c3cloneB.data.carryLast).getD 0
          + getColumnSum c3parse c3cloneB.children c3sw.data.carryColumn.toNat) := by
  have h := C3_carry_chain c3parse c3sw 3 10 0 [c3cloneA, c3cloneB]
    (by norm_num [c3sw]) c3s_eval
  refine ⟨by norm_num [c3sw], h.1, h.2.1, rfl, rfl, rfl, ?_⟩
  exact h.2.2 none [c3cloneA] c3cloneB h.1 rfl

/-! ## C4 — page splitting and y re-flow -/

theorem resetYs_length (gap : ℚ) : ∀ (y0 : ℚ) (ws : List GoWidget),
    (resetYs y0 gap ws).length = ws.length := by
  intro y0 ws
  induction ws generalizing y0 with
  | nil => rfl
  | cons w ws ih =>
    by_cases hy : w.data.y = 0 <;> simp [resetYs, hy, ih]

theorem resetYs_declared (gap : ℚ) : ∀ (y0 : ℚ) (ws : List GoWidget) (i : ℕ) (v : GoWidget),
    ws.get? i = some v → ¬ v.data.y = 0 → (resetYs y0 gap ws).get? i = some v := by
  intro y0 ws
  induction ws generalizing y0 with
  | nil => intro i v h; simp at h
  | cons w ws ih =>
    intro i v h hv
    cases i with
    | zero =>
      obtain rfl := Option.some.inj h
      simp [resetYs, hv]
    | succ i =>
      simp only [List.get?_cons_succ] at h
      by_cases hy : w.data.y = 0 <;>
        simp [resetYs, hy] <;>
        simpa using ih _ _ _ h hv

/-- C4 (amended): `resetY` re-flows from the given cursor ONLY the children
with undeclared (zero) `y` — a declared-`y` child is left at its old
computed position and does not advance the cursor — and the overflow step
of the page walk moves the child to a fresh non-reset page, restarts the
cursor at 0 and re-flows the remaining children through that `resetY`. -/
theorem C4_page_overflow_reflow
    (y0 gap : ℚ) (ws : List GoWidget)
    (tFuel : ℕ) (parse : List Char → Option ℚ) (pageReset : Bool)
    (pageBottom : ℚ) (n : ℕ) (w : GoWidget) (rest : List GoWidget)
    (curY0 : ℚ) (cp : SPage) (done0 : List SPage)
    (hne : cp.children.isEmpty = false) (hnt : w.data.wtype ≠ "table")
    (hy : curY0 < pageBottom)
    (hover : curY0 + w.data.calcd.outerHeight > pageBottom)
    (hw0 : w.data.y = 0) :
    ((resetYs y0 gap ws).length = ws.length) ∧
    (∀ i v, ws.get? i = some v → ¬ v.data.y = 0 →
      (resetYs y0 gap ws).get? i = some v) ∧
    (splitPageGo tFuel parse pageReset gap pageBottom (n + 1) (w :: rest) curY0
        (some cp) done0
      = splitPageGo tFuel parse pageReset gap pageBottom n
          (resetYs ((adjustCalculatedY { w.data with
              calcd := { w.data.calcd with outerY := 0 } }).calcd.outerHeight + gap)
            gap rest)
          (w.data.calcd.outerHeight + (if gap > 0 then gap else 0))
          (some ⟨false, [.node (adjustCalculatedY { w.data with
              calcd := { w.data.calcd with outerY := 0 } }) w.children]⟩)
          (done0 ++ [cp])) := by
  refine ⟨resetYs_length gap y0 ws, fun i v h hv => resetYs_declared gap y0 ws i v h hv, ?_⟩
  have hres : resetYs 0 gap (w :: rest)
      = .node (adjustCalculatedY { w.data with
          calcd := { w.data.calcd with outerY := 0 } }) w.children
        :: resetYs (0 + (adjustCalculatedY { w.data with
            calcd := { w.data.calcd with outerY := 0 } }).calcd.outerHeight + gap)
          gap rest := by
    simp [resetYs, hw0]
  rw [splitPageGo]
  simp only [if_neg (not_le.mpr hy), hres]
  rw [if_pos ⟨by simp [hne], hnt, hover⟩]
  simp only []
  rw [if_neg (show ¬ ((GoWidget.node (adjustCalculatedY { w.data with
      calcd := { w.data.calcd with outerY := 0 } }) w.children).data.wtype = "table" ∧
      (0 : ℚ) + (GoWidget.node (adjustCalculatedY { w.data with
        calcd := { w.data.calcd with outerY := 0 } }) w.children).data.calcd.outerHeight
        + (GoWidget.node (adjustCalculatedY { w.data with
          calcd := { w.data.calcd with outerY := 0 } }) w.children).data.breakMargin
        > pageBottom) from fun hc => hnt hc.1)]
  have hh : (adjustCalculatedY { w.data with
      calcd := { w.data.calcd with outerY := 0 } }).calcd.outerHeight
      = w.data.calcd.outerHeight := rfl
  simp only [zero_add, List.nil_append, GoWidget.data_node, hh]

/-- Counterexample children for C4: a 500-high flowing child and a 400-high
child with a DECLARED `y="50"`. -/
def c4a : GoWidget := .node { calcd := { outerY := 0, outerHeight := 500 } } []

def c4b : GoWidget := .node { y := 50, calcd := { outerY := 50, outerHeight := 400 } } []

def c4ax : GoWidget :=
  .node (adjustCalculatedY { c4a.data with calcd := { c4a.data.calcd with outerY := 0 } }) []

theorem c4_eval : splitPage 1 (fun _ => none) true 0 800 [c4a, c4b]
    = some [⟨true, [c4ax]⟩, ⟨false, [c4b]⟩] := by
  have hsort : ([c4a, c4b].mergeSort
      fun a b => decide (a.data.calcd.outerY ≤ b.data.calcd.outerY)) = [c4a, c4b] := by
    simp [List.mergeSort, List.merge, c4a, c4b]
  have hres1 : resetYs 0 0 [c4a, c4b] = [c4ax, c4b] := by
    simp [resetYs, adjustCalculatedY, c4a, c4b, c4ax]
  have hres2 : resetYs 0 0 [c4b] = [c4b] := by
    simp [resetYs, c4b]
  have htab : ¬ ("" : String) = "table" := by decide
  have hax_h : c4ax.data.calcd.outerHeight = 500 := rfl
  have hax_t : c4ax.data.wtype = "" := rfl
  have hb_h : c4b.data.calcd.outerHeight = 400 := rfl
  have hb_t : c4b.data.wtype = "" := rfl
  rw [splitPage]
  simp only [hsort, List.length_cons, List.length_nil]
  simp [splitPageGo, hres1, hres2, hax_h, hax_t, hb_h, hb_t, if_neg htab]
  norm_num [splitPageGo, hres2, hax_h, hax_t, hb_h, hb_t, if_neg htab]
  intro h
  exact absurd h htab

/-- C4 counterexample: the claim says ALL remaining children are re-flowed
from 0 on the fresh page; the declared-`y` child `c4b` is moved to the new
page still at its old computed `outerY = 50` — `resetY` skips it. -/
theorem C4_counterexample :
    splitPage 1 (fun _ => none) true 0 800 [c4a, c4b]
      = some [⟨true, [c4ax]⟩, ⟨false, [c4b]⟩] ∧
    c4b.data.calcd.outerY = 50 ∧
    ¬ (∀ cs, splitPage 1 (fun _ => none) true 0 800 [c4a, c4b] = some cs →
        ∀ p ∈ cs.drop 1, ∀ c, p.children.head? = some c →
          c.data.calcd.outerY = 0) := by
  refine ⟨c4_eval, rfl, ?_⟩
  intro hall
  have := hall _ c4_eval ⟨false, [c4b]⟩ (by simp) c4b rfl
  rw [show c4b.data.calcd.outerY = 50 from rfl] at this
  norm_num at this

/-- The spec's S5 children: three 400-high divs on an 800-high page. -/
def c4d1 : GoWidget := .node { calcd := { outerY := 0, outerHeight := 400 } } []

def c4d2 : GoWidget := .node { calcd := { outerY := 400, outerHeight := 400 } } []

def c4d3 : GoWidget := .node { calcd := { outerY := 800, outerHeight := 400 } } []

def c4d1x : GoWidget :=
  .node (adjustCalculatedY { c4d1.data with calcd := { c4d1.data.calcd with outerY := 0 } }) []

def c4d2x : GoWidget :=
  .node (adjustCalculatedY { c4d2.data with calcd := { c4d2.data.calcd with outerY := 400 } }) []

def c4d3y : GoWidget :=
  .node (adjustCalculatedY { c4d3.data with calcd := { c4d3.data.calcd with outerY := 800 } }) []

def c4d3x : GoWidget :=
  .node (adjustCalculatedY { c4d3y.data with calcd := { c4d3y.data.calcd with outerY := 0 } }) []

theorem c4s5_eval : splitPage 1 (fun _ => none) true 0 800 [c4d1, c4d2, c4d3]
    = some [⟨true, [c4d1x, c4d2x]⟩, ⟨true, [c4d3x]⟩] := by
  have hsort : ([c4d1, c4d2, c4d3].mergeSort
      fun a b => decide (a.data.calcd.outerY ≤ b.data.calcd.outerY))
      = [c4d1, c4d2, c4d3] := by
    simp [List.mergeSort, List.merge, c4d1, c4d2, c4d3]
    norm_num
  have hres1 : resetYs 0 0 [c4d1, c4d2, c4d3] = [c4d1x, c4d2x, c4d3y] := by
    simp [resetYs, adjustCalculatedY, c4d1, c4d2, c4d3, c4d1x, c4d2x, c4d3y]
    norm_num
  have hres2 : resetYs 0 0 [c4d3y] = [c4d3x] := by
    simp [resetYs, adjustCalculatedY, c4d1, c4d2, c4d3, c4d3y, c4d3x]
  have htab : ¬ ("" : String) = "table" := by decide
  have h1h : c4d1x.data.calcd.outerHeight = 400 := rfl
  have h2h : c4d2x.data.calcd.outerHeight = 400 := rfl
  have h3h : c4d3y.data.calcd.outerHeight = 400 := rfl
  have h4h : c4d3x.data.calcd.outerHeight = 400 := rfl
  have h1t : c4d1x.data.wtype = "" := rfl
  have h2t : c4d2x.data.wtype = "" := rfl
  have h3t : c4d3y.data.wtype = "" := rfl
  have h4t : c4d3x.data.wtype = "" := rfl
  rw [splitPage]
  simp only [hsort, List.length_cons, List.length_nil]
  simp [splitPageGo, hres1, hres2, h1h, h2h, h3h, h4h, h1t, h2t, h3t, h4t, htab]
  norm_num [splitPageGo, hres2, h1h, h2h, h3h, h4h, h1t, h2t, h3t, h4t, htab]

/-- Witness for C4 (amended): the overflow step at a concrete 400-high
child on a page holding a 500-high child (cursor 500, bottom 800), the
`resetY` facts at a declared-`y` list, and the spec's S5 scenario (three
400-divs on an 800 page give two pages with the third div at y = 0). -/
theorem C4_witness :
    (⟨true, [c4ax]⟩ : SPage).children.isEmpty = false ∧
    ¬ ("" : String) = "table" ∧ (500 : ℚ) < 800 ∧
    (resetYs 0 0 [c4b]).length = [c4b].length ∧
    (resetYs 0 0 [c4b]).get? 0 = some c4b ∧
    (splitPageGo 1 (fun _ => none) true 0 800 (0 + 1) [c4d1] 500
        (some ⟨true, [c4ax]⟩) []
      = splitPageGo 1 (fun _ => none) true 0 800 0
          (resetYs ((adjustCalculatedY { c4d1.data with
              calcd := { c4d1.data.calcd with outerY := 0 } }).calcd.outerHeight + 0) 0 [])
          (c4d1.data.calcd.outerHeight + (if (0 : ℚ) > 0 then (0 : ℚ) else 0))
          (some ⟨false, [.node (adjustCalculatedY { c4d1.data with
              calcd := { c4d1.data.calcd with outerY := 0 } }) c4d1.children]⟩)
          ([] ++ [⟨true, [c4ax]⟩])) ∧
    splitPage 1 (fun _ => none) true 0 800 [c4d1, c4d2, c4d3]
      = some [⟨true, [c4d1x, c4d2x]⟩, ⟨true, [c4d3x]⟩] ∧
    c4d3x.data.calcd.outerY = 0 := by
  have h := C4_page_overflow_reflow 0 0 [c4b] 1 (fun _ => none) true 800 0 c4d1 [] 500
    ⟨true, [c4ax]⟩ [] (by simp) (by decide) (by norm_num)
    (by rw [show c4d1.data.calcd.outerHeight = 400 from rfl]; norm_num) rfl
  exact ⟨by simp, by decide, by norm_num, h.1, h.2.1 0 c4b rfl (by
    rw [show c4b.data.y = 50 from rfl]; norm_num), h.2.2, c4s5_eval, rfl⟩
